import Mathlib

/-!
# Poseidon xMega firmware: clocks, counters, the 1 Hz main loop and the TWI master

Embedding of `svvsd_poseidon_xmega/clocks_and_counters.c` and of the main loop of
`main.c`.  Registers are natural numbers truncated to the register width on every
write; every register is plain storage except `OSC_STATUS`, whose reads are answered
by the environment.  The TWI master driver, whose source file is absent, is modelled
from the specification of its state machine.
-/

namespace Poseidon

/-! ## Register file -/

/-- I/O registers the firmware touches, plus the remaining power-reduction registers. -/
inductive Reg
  | OSC_XOSCCTRL | VBAT_CTRL | CPU_CCP | OSC_CTRL | OSC_STATUS | CLK_RTCCTRL | CLK_CTRL
  | OSC_DFLLCTRL | DFLLRC32M_CTRL
  | PORTC_DIR | PORTD_DIR
  | TCC0_CTRLA | TCC0_CTRLB | TCC0_CTRLD | TCC0_PER
  | TCC0_CCA | TCC0_CCB | TCC0_CCC | TCC0_CCD
  | TCC1_CTRLA | TCC1_CTRLB | TCC1_CTRLD | TCC1_PER | TCC1_CCA | TCC1_CCB
  | TCD0_CTRLA | TCD0_CTRLB | TCD0_CTRLD | TCD0_PER | TCD0_CCA | TCD0_CCB | TCD0_CCC
  | TCE0_CTRLA | TCE0_CTRLB | TCE0_CTRLD | TCE0_INTCTRLA | TCE0_PER
  | PR_PRGEN | PR_PRPA | PR_PRPB | PR_PRPC | PR_PRPD | PR_PRPE | PR_PRPF
  deriving DecidableEq, Repr

/-- Width in bits of a register: the timer period and compare registers are 16 bit,
all others 8 bit. -/
def Reg.width : Reg → Nat
  | .TCC0_PER | .TCC0_CCA | .TCC0_CCB | .TCC0_CCC | .TCC0_CCD => 16
  | .TCC1_PER | .TCC1_CCA | .TCC1_CCB => 16
  | .TCD0_PER | .TCD0_CCA | .TCD0_CCB | .TCD0_CCC => 16
  | .TCE0_PER => 16
  | _ => 8

/-- One volatile access to a register, with the value read or written. -/
inductive Access
  | read (r : Reg) (v : Nat)
  | write (r : Reg) (v : Nat)
  deriving DecidableEq, Repr

/-- The register file together with the history of volatile accesses and the number
of reads of `OSC_STATUS` made so far. -/
structure Machine where
  regs : Reg → Nat
  trace : List Access
  oscReads : Nat

/-- Store `v`, truncated to the register width, and log the write. -/
def Machine.write (m : Machine) (r : Reg) (v : Nat) : Machine :=
  { m with
    regs := fun x => if x = r then v % 2 ^ r.width else m.regs x
    trace := m.trace ++ [Access.write r (v % 2 ^ r.width)] }

/-- Value a read of `r` returns: `OSC_STATUS` is answered by the environment `osc`
(its n-th read returns `osc n`), every other register returns what it stores. -/
def Machine.peek (osc : Nat → Nat) (m : Machine) (r : Reg) : Nat :=
  if r = Reg.OSC_STATUS then osc m.oscReads else m.regs r

/-- Log a read of `r`; a read of `OSC_STATUS` consumes one environment value. -/
def Machine.afterRead (osc : Nat → Nat) (m : Machine) (r : Reg) : Machine :=
  { m with
    trace := m.trace ++ [Access.read r (m.peek osc r)]
    oscReads := if r = Reg.OSC_STATUS then m.oscReads + 1 else m.oscReads }

/-- The compound assignment `r |= mask`: one read followed by one write. -/
def Machine.orAssign (osc : Nat → Nat) (m : Machine) (r : Reg) (mask : Nat) : Machine :=
  (m.afterRead osc r).write r (m.peek osc r ||| mask)

/-! ## Bit operations of `poseidon.h` -/

/-- Modelled from the spec: `poseidon.h`, which defines `SetBit`, is not among the
sources; `SetBit(x, b)` sets bit `b` of register `x` by a read-modify-write. -/
def SetBit (osc : Nat → Nat) (m : Machine) (r : Reg) (bp : Nat) : Machine :=
  (m.afterRead osc r).write r (m.peek osc r ||| 1 <<< bp)

/-- Modelled from the spec: `poseidon.h`, which defines `ClearBit`, is not among the
sources; `ClearBit(x, b)` clears bit `b` of register `x` by a read-modify-write,
the mask being the complement of `1 << b` within the register width. -/
def ClearBit (osc : Nat → Nat) (m : Machine) (r : Reg) (bp : Nat) : Machine :=
  (m.afterRead osc r).write r (m.peek osc r &&& ((2 ^ r.width - 1) ^^^ 1 <<< bp))

/-- Modelled from the spec: `poseidon.h`, which defines `BitIsClear`, is not among the
sources; `BitIsClear(x, b)` holds when bit `b` of the value read from `x` is zero. -/
def BitIsClear (v : Nat) (bp : Nat) : Bool :=
  v &&& 1 <<< bp == 0

/-! ## Device header constants (`avr/io.h`, ATxmega256A3BU) -/

/-- Device header: external oscillator frequency range 0.4 to 2 MHz. -/
def OSC_FRQRANGE_04TO2_gc : Nat := 0x00 <<< 6
/-- Device header: 32.768 kHz crystal low-power mode mask. -/
def OSC_X32KLPM_bm : Nat := 0x20
/-- Device header: external source is the 32.768 kHz TOSC. -/
def OSC_XOSCSEL_32KHz_gc : Nat := 0x02
/-- Device header: battery-backup module access enable mask. -/
def VBAT_ACCEN_bm : Nat := 0x02
/-- Device header: battery-backup crystal oscillator enable mask. -/
def VBAT_XOSCEN_bm : Nat := 0x08
/-- Device header: configuration-change-protection signature for I/O registers. -/
def CCP_IOREG_gc : Nat := 0xD8
/-- Device header: external oscillator enable mask of `OSC_CTRL`. -/
def OSC_XOSCEN_bm : Nat := 0x08
/-- Device header: external oscillator enable bit position of `OSC_CTRL`. -/
def OSC_XOSCEN_bp : Nat := 3
/-- Device header: 32 MHz internal oscillator enable bit position of `OSC_CTRL`. -/
def OSC_RC32MEN_bp : Nat := 1
/-- Device header: 2 MHz internal oscillator enable bit position of `OSC_CTRL`. -/
def OSC_RC2MEN_bp : Nat := 0
/-- Device header: external oscillator ready bit position of `OSC_STATUS`. -/
def OSC_XOSCRDY_bp : Nat := 3
/-- Device header: 32 MHz internal oscillator ready bit position of `OSC_STATUS`. -/
def OSC_RC32MRDY_bp : Nat := 1
/-- Device header: RTC clock source is the 32.768 kHz crystal on TOSC. -/
def CLK_RTCSRC_TOSC32_gc : Nat := 0x05 <<< 1
/-- Device header: RTC clock source enable mask. -/
def CLK_RTCEN_bm : Nat := 0x01
/-- Device header: system clock selection, internal 32 MHz RC oscillator. -/
def CLK_SCLKSEL_RC32M_gc : Nat := 0x01
/-- Device header: 32 MHz DFLL calibration reference is the external 32.768 kHz. -/
def OSC_RC32MCREF_XOSC32K_gc : Nat := 0x01 <<< 1
/-- Device header: DFLL enable bit position. -/
def DFLL_ENABLE_bp : Nat := 0
/-- Device header: timer clock selection, system clock divided by 64. -/
def TC_CLKSEL_DIV64_gc : Nat := 0x05
/-- Device header: timer clock selection, system clock divided by 1024. -/
def TC_CLKSEL_DIV1024_gc : Nat := 0x07
/-- Device header: waveform generation mode group mask of `CTRLB`. -/
def TC0_WGMODE_gm : Nat := 0x07
/-- Device header: single-slope PWM waveform generation mode. -/
def TC_WGMODE_SINGLESLOPE_gc : Nat := 0x03
/-- Device header: compare or capture A enable mask, timer type 0. -/
def TC0_CCAEN_bm : Nat := 0x10
/-- Device header: compare or capture B enable mask, timer type 0. -/
def TC0_CCBEN_bm : Nat := 0x20
/-- Device header: compare or capture C enable mask, timer type 0. -/
def TC0_CCCEN_bm : Nat := 0x40
/-- Device header: compare or capture D enable mask, timer type 0. -/
def TC0_CCDEN_bm : Nat := 0x80
/-- Device header: compare or capture A enable mask, timer type 1. -/
def TC1_CCAEN_bm : Nat := 0x10
/-- Device header: compare or capture B enable mask, timer type 1. -/
def TC1_CCBEN_bm : Nat := 0x20
/-- Device header: event action group mask of `CTRLD`. -/
def TC0_EVACT_gm : Nat := 0xE0
/-- Device header: event source group mask of `CTRLD`. -/
def TC0_EVSEL_gm : Nat := 0x0F
/-- Device header: no event action. -/
def TC_EVACT_OFF_gc : Nat := 0x00 <<< 5
/-- Device header: no event source. -/
def TC_EVSEL_OFF_gc : Nat := 0x00
/-- Device header: overflow interrupt at low level. -/
def TC_OVFINTLVL_LO_gc : Nat := 0x01
/-- Device header: power-reduction bit position of timer/counter 0 of a port. -/
def PR_TC0_bp : Nat := 0
/-- Device header: power-reduction bit position of timer/counter 1 of a port. -/
def PR_TC1_bp : Nat := 1

/-- Division factor selected by a `CLKSEL` code (data sheet table 14-3, the table the
source cites); `none` for off and for the event-channel selections. -/
def clkselDivisor : Nat → Option Nat
  | 1 => some 1
  | 2 => some 2
  | 3 => some 4
  | 4 => some 8
  | 5 => some 64
  | 6 => some 256
  | 7 => some 1024
  | _ => none

/-- System clock frequency in Hz after `system_clock_init` (`F_CPU`, and the figure
in the comment of `timer_counter_E0_init`). -/
def F_CPU : Nat := 32000000

/-! ## `timer_counter_E0_init` -/

/-- The 1 Hz timer set-up, statement by statement. -/
def timer_counter_E0_init (osc : Nat → Nat) (m : Machine) : Machine :=
  let m := m.write Reg.TCE0_CTRLA TC_CLKSEL_DIV1024_gc
  let m := m.write Reg.TCE0_CTRLB TC_WGMODE_SINGLESLOPE_gc
  let m := m.write Reg.TCE0_CTRLD (TC_EVSEL_OFF_gc ||| TC_EVACT_OFF_gc)
  let m := m.write Reg.TCE0_INTCTRLA TC_OVFINTLVL_LO_gc
  let m := ClearBit osc m Reg.PR_PRPC PR_TC0_bp
  let m := m.write Reg.TCE0_PER 31250
  m

/-! ## `timer_counter_C0_C1_D0_init` -/

/-- Neutral compare values, globals of `motors.c` (not among the sources), taken as
parameters. -/
structure NeutralSettings where
  motor_1_neutral_setting : Nat
  motor_2_neutral_setting : Nat
  motor_3_neutral_setting : Nat
  motor_4_neutral_setting : Nat
  motor_5_neutral_setting : Nat
  motor_6_neutral_setting : Nat
  servo_1_neutral_setting : Nat
  servo_2_neutral_setting : Nat
  servo_3_neutral_setting : Nat

/-- The PWM timer set-up for the ESCs and servos, statement by statement. -/
def timer_counter_C0_C1_D0_init (osc : Nat → Nat) (g : NeutralSettings) (topcount : Nat)
    (m : Machine) : Machine :=
  let m := m.write Reg.PORTC_DIR 0b00111111
  let m := m.write Reg.PORTD_DIR 0b00000111
  let m := m.write Reg.TCC0_CTRLA TC_CLKSEL_DIV64_gc
  let m := m.write Reg.TCC1_CTRLA TC_CLKSEL_DIV64_gc
  let m := m.write Reg.TCD0_CTRLA TC_CLKSEL_DIV64_gc
  let m := m.write Reg.TCC0_CTRLB
    (TC0_CCAEN_bm ||| TC0_CCBEN_bm ||| TC0_CCCEN_bm ||| TC0_CCDEN_bm ||| TC_WGMODE_SINGLESLOPE_gc)
  let m := m.write Reg.TCC1_CTRLB (TC1_CCAEN_bm ||| TC1_CCBEN_bm ||| TC_WGMODE_SINGLESLOPE_gc)
  let m := m.write Reg.TCD0_CTRLB
    (TC0_CCAEN_bm ||| TC0_CCBEN_bm ||| TC0_CCCEN_bm ||| TC0_CCDEN_bm ||| TC_WGMODE_SINGLESLOPE_gc)
  let m := m.write Reg.TCC0_CTRLD (TC_EVACT_OFF_gc ||| TC_EVSEL_OFF_gc)
  let m := m.write Reg.TCC1_CTRLD (TC_EVACT_OFF_gc ||| TC_EVSEL_OFF_gc)
  let m := m.write Reg.TCD0_CTRLD (TC_EVSEL_OFF_gc ||| TC_EVACT_OFF_gc)
  let m := ClearBit osc m Reg.PR_PRPC PR_TC0_bp
  let m := ClearBit osc m Reg.PR_PRPC PR_TC1_bp
  let m := ClearBit osc m Reg.PR_PRPD PR_TC0_bp
  let m := m.write Reg.TCC1_PER topcount
  let m := m.write Reg.TCC0_PER topcount
  let m := m.write Reg.TCD0_PER topcount
  let m := m.write Reg.TCC0_CCA g.motor_1_neutral_setting
  let m := m.write Reg.TCC0_CCB g.motor_2_neutral_setting
  let m := m.write Reg.TCC0_CCC g.motor_3_neutral_setting
  let m := m.write Reg.TCC0_CCD g.motor_4_neutral_setting
  let m := m.write Reg.TCC1_CCA g.motor_5_neutral_setting
  let m := m.write Reg.TCC1_CCB g.motor_6_neutral_setting
  let m := m.write Reg.TCD0_CCA g.servo_1_neutral_setting
  let m := m.write Reg.TCD0_CCB g.servo_2_neutral_setting
  let m := m.write Reg.TCD0_CCC g.servo_3_neutral_setting
  m

/-- A PWM timer of the device with its control, period registers and output port. -/
inductive Timer
  | TCC0 | TCC1 | TCD0
  deriving DecidableEq, Repr

/-- Control register B of a timer. -/
def Timer.ctrlB : Timer → Reg
  | .TCC0 => Reg.TCC0_CTRLB
  | .TCC1 => Reg.TCC1_CTRLB
  | .TCD0 => Reg.TCD0_CTRLB

/-- Control register D of a timer. -/
def Timer.ctrlD : Timer → Reg
  | .TCC0 => Reg.TCC0_CTRLD
  | .TCC1 => Reg.TCC1_CTRLD
  | .TCD0 => Reg.TCD0_CTRLD

/-- Period register of a timer. -/
def Timer.per : Timer → Reg
  | .TCC0 => Reg.TCC0_PER
  | .TCC1 => Reg.TCC1_PER
  | .TCD0 => Reg.TCD0_PER

/-- Direction register of the port a timer drives. -/
def Timer.portDir : Timer → Reg
  | .TCC0 => Reg.PORTC_DIR
  | .TCC1 => Reg.PORTC_DIR
  | .TCD0 => Reg.PORTD_DIR

/-- A compare channel that `timer_counter_C0_C1_D0_init` writes a neutral value to:
its timer, its compare register, its enable mask in `CTRLB` and the number of its
waveform output pin on the timer's port (TCC0 on PC0-PC3, TCC1 on PC4-PC5, TCD0 on
PD0-PD2). -/
structure Channel where
  timer : Timer
  cc : Reg
  enable : Nat
  pin : Nat
  deriving DecidableEq, Repr

/-- The nine channels given a neutral value, in source order. -/
def neutralChannels : List Channel :=
  [ ⟨.TCC0, Reg.TCC0_CCA, TC0_CCAEN_bm, 0⟩, ⟨.TCC0, Reg.TCC0_CCB, TC0_CCBEN_bm, 1⟩,
    ⟨.TCC0, Reg.TCC0_CCC, TC0_CCCEN_bm, 2⟩, ⟨.TCC0, Reg.TCC0_CCD, TC0_CCDEN_bm, 3⟩,
    ⟨.TCC1, Reg.TCC1_CCA, TC1_CCAEN_bm, 4⟩, ⟨.TCC1, Reg.TCC1_CCB, TC1_CCBEN_bm, 5⟩,
    ⟨.TCD0, Reg.TCD0_CCA, TC0_CCAEN_bm, 0⟩, ⟨.TCD0, Reg.TCD0_CCB, TC0_CCBEN_bm, 1⟩,
    ⟨.TCD0, Reg.TCD0_CCC, TC0_CCCEN_bm, 2⟩ ]

/-- The four data-sheet requirements of the comment in `timer_counter_C0_C1_D0_init`
for one channel: a waveform generation mode (single slope) is selected, event actions
are disabled, the channel is enabled, and its port pin is an output. -/
def Channel.waveformVisible (regs : Reg → Nat) (c : Channel) : Prop :=
  regs c.timer.ctrlB &&& TC0_WGMODE_gm = TC_WGMODE_SINGLESLOPE_gc ∧
  (regs c.timer.ctrlD &&& TC0_EVACT_gm = TC_EVACT_OFF_gc ∧
    regs c.timer.ctrlD &&& TC0_EVSEL_gm = TC_EVSEL_OFF_gc) ∧
  regs c.timer.ctrlB &&& c.enable = c.enable ∧
  (regs c.timer.portDir).testBit c.pin = true

instance (regs : Reg → Nat) (c : Channel) : Decidable (c.waveformVisible regs) := by
  unfold Channel.waveformVisible; infer_instance

/-! ## `system_clock_init` -/

/-- The loop `do {} while BitIsClear(r, bp);`: each iteration is one read of `r`.
At most `fuel` reads are made; the flag tells whether the loop was left. -/
def doWhileBitIsClear (osc : Nat → Nat) (r : Reg) (bp : Nat) :
    Nat → Machine → Machine × Bool
  | 0, m => (m, false)
  | fuel + 1, m =>
    if BitIsClear (m.peek osc r) bp then doWhileBitIsClear osc r bp fuel (m.afterRead osc r)
    else (m.afterRead osc r, true)

/-- The clock set-up, statement by statement.  Each of the two waiting loops may make
up to `fuel` reads of `OSC_STATUS`; the flag tells whether the function returned, and
the machine is the one reached when it returned or when the reads ran out. -/
def system_clock_init (osc : Nat → Nat) (fuel : Nat) (m : Machine) : Machine × Bool :=
  let m := m.write Reg.OSC_XOSCCTRL
    (OSC_FRQRANGE_04TO2_gc ||| OSC_X32KLPM_bm ||| OSC_XOSCSEL_32KHz_gc)
  let m := m.orAssign osc Reg.VBAT_CTRL VBAT_ACCEN_bm
  let m := m.orAssign osc Reg.VBAT_CTRL VBAT_XOSCEN_bm
  let m := m.write Reg.CPU_CCP CCP_IOREG_gc
  let m := m.orAssign osc Reg.OSC_CTRL OSC_XOSCEN_bm
  match doWhileBitIsClear osc Reg.OSC_STATUS OSC_XOSCRDY_bp fuel m with
  | (m, false) => (m, false)
  | (m, true) =>
    let m := m.write Reg.CPU_CCP CCP_IOREG_gc
    let m := m.write Reg.CLK_RTCCTRL (CLK_RTCSRC_TOSC32_gc ||| CLK_RTCEN_bm)
    let m := m.write Reg.CPU_CCP CCP_IOREG_gc
    let m := SetBit osc m Reg.OSC_CTRL OSC_RC32MEN_bp
    match doWhileBitIsClear osc Reg.OSC_STATUS OSC_RC32MRDY_bp fuel m with
    | (m, false) => (m, false)
    | (m, true) =>
      let m := m.write Reg.CPU_CCP CCP_IOREG_gc
      let m := m.write Reg.CLK_CTRL CLK_SCLKSEL_RC32M_gc
      let m := m.write Reg.OSC_DFLLCTRL OSC_RC32MCREF_XOSC32K_gc
      let m := SetBit osc m Reg.DFLLRC32M_CTRL DFLL_ENABLE_bp
      let m := m.write Reg.CPU_CCP CCP_IOREG_gc
      let m := ClearBit osc m Reg.OSC_CTRL OSC_RC2MEN_bp
      (m, true)

/-- A machine at reset of the model: the given register contents, nothing accessed. -/
def Machine.start (regs : Reg → Nat) : Machine :=
  { regs := regs, trace := [], oscReads := 0 }

/-- Whether an access is a read of `OSC_STATUS` whose value has bit `bp` set. -/
def Access.isReadyRead (bp : Nat) : Access → Bool
  | .read r v => r == Reg.OSC_STATUS && !BitIsClear v bp
  | .write _ _ => false

/-- Whether an access is a write to register `r`. -/
def Access.isWriteTo (r : Reg) : Access → Bool
  | .read _ _ => false
  | .write x _ => x == r

/-- Every access of the trace that satisfies `q` comes after an access that
satisfies `p`. -/
def OnlyAfter (p q : Access → Bool) (tr : List Access) : Prop :=
  ∀ pre e post, tr = pre ++ e :: post → q e = true → ∃ a ∈ pre, p a = true

/-! ## The main loop of `main.c` and the 1 Hz interrupt -/

/-- What an iteration of the main loop does towards the outside: the `printf` calls
and the two sensor reads of lines 122 to 130 of `main.c`, in source order. -/
inductive Output
  | printSeconds (seconds : Nat)
  | DO_read
  | printDOdata
  | xmega_read_RGB_values
  | printRawClear
  | printRawRed
  | printRawGreen
  | printRawBlue
  | printSeparator
  deriving DecidableEq, Repr

/-- Position of the main flow inside the loop body. -/
inductive MainPC
  | test
  | clear
  | incr
  | report
  deriving DecidableEq, Repr

/-- The variables shared between the main flow and the timer interrupt, the outputs
performed so far, and two history counters: how often `seconds++` has run and how
often the overflow interrupt routine has run. -/
structure LoopState where
  ItsTime : Nat
  seconds : Nat
  yellowLED1 : Bool
  pc : MainPC
  performed : List Output
  increments : Nat
  overflows : Nat
  deriving DecidableEq, Repr

/-- The prints and sensor reads of one report, with the value of `seconds` printed. -/
def report (seconds : Nat) : List Output :=
  [ .printSeconds seconds, .DO_read, .printDOdata, .xmega_read_RGB_values,
    .printRawClear, .printRawRed, .printRawGreen, .printRawBlue, .printSeparator ]

/-- One pass through the body of `while (1)` with no interrupt in between. -/
def mainLoopIteration (s : LoopState) : LoopState :=
  if s.ItsTime = 1 then
    let s := { s with ItsTime := 0 }
    let s := { s with seconds := (s.seconds + 1) % 2 ^ 16, increments := s.increments + 1 }
    let s := { s with performed := s.performed ++ report s.seconds }
    s
  else
    s

/-- One step of the main flow: the test of the flag, `ItsTime = 0`, `seconds++`, or
the prints and sensor reads. -/
def mainStep (s : LoopState) : LoopState :=
  match s.pc with
  | .test => if s.ItsTime = 1 then { s with pc := .clear } else s
  | .clear => { s with ItsTime := 0, pc := .incr }
  | .incr =>
    { s with seconds := (s.seconds + 1) % 2 ^ 16, increments := s.increments + 1, pc := .report }
  | .report => { s with performed := s.performed ++ report s.seconds, pc := .test }

/-- The interrupt routine `ISR(TCE0_OVF_vect)`: toggle the yellow LED, set the flag. -/
def ISR_TCE0_OVF (s : LoopState) : LoopState :=
  { s with yellowLED1 := !s.yellowLED1, ItsTime := 1, overflows := s.overflows + 1 }

/-- Who runs next: the main flow for one step, or the interrupt routine as a whole. -/
inductive Actor
  | main
  | isr
  deriving DecidableEq, Repr

/-- Run a schedule from a state. -/
def interleave (s : LoopState) : List Actor → LoopState
  | [] => s
  | .main :: rest => interleave (mainStep s) rest
  | .isr :: rest => interleave (ISR_TCE0_OVF s) rest

/-- State on entry to the loop: `ItsTime = 0` (line 57), `seconds` zero as a global. -/
def loopEntry : LoopState :=
  { ItsTime := 0, seconds := 0, yellowLED1 := false, pc := .test, performed := [],
    increments := 0, overflows := 0 }

/-! ## TWI master transaction driver -/

/-- Modelled from the spec: the driver `twi_master_driver.c` is not among the sources;
direction of a transaction (section 3). -/
inductive Direction
  | Write
  | Read
  | WriteThenRead
  deriving DecidableEq, Repr

/-- Modelled from the spec: the driver `twi_master_driver.c` is not among the sources;
result of a transaction (section 3). -/
inductive TransactionStatus
  | Pending
  | InProgress
  | Success
  | Nack
  | ArbitrationLost
  | BusError
  | Timeout
  deriving DecidableEq, Repr

/-- Modelled from the spec: the driver `twi_master_driver.c` is not among the sources;
one bus operation (section 3).  `readBuffer` holds the bytes received so far and
`readCapacity` the capacity fixed at creation. -/
structure TransactionDescriptor where
  peripheralAddress : Nat
  direction : Direction
  writeBuffer : List Nat
  readBuffer : List Nat
  readCapacity : Nat
  bytesTransferred : Nat
  status : TransactionStatus
  deriving DecidableEq, Repr

/-- Modelled from the spec: the driver `twi_master_driver.c` is not among the sources;
per-bus state (section 3). -/
structure BusState where
  currentTransaction : Option TransactionDescriptor
  retryCount : Nat
  busy : Bool
  deriving DecidableEq, Repr

/-- Modelled from the spec: the driver `twi_master_driver.c` is not among the sources;
states of the state machine of section 4.1. -/
inductive Phase
  | Idle
  | AddressPhase
  | DataWritePhase
  | DataReadPhase
  deriving DecidableEq, Repr

/-- Modelled from the spec: the driver `twi_master_driver.c` is not among the sources;
calls of the register-level interface of section 6 the driver makes.  A start
condition carries the address and the read bit. -/
inductive BusOp
  | setStartCondition (address : Nat) (read : Bool)
  | setStopCondition
  | writeDataRegister (byte : Nat)
  | ackNextByte
  | nackNextByte
  deriving DecidableEq, Repr

/-- Whether a bus operation is a start condition. -/
def BusOp.isStart : BusOp → Bool
  | .setStartCondition _ _ => true
  | _ => false

/-- Modelled from the spec: the driver `twi_master_driver.c` is not among the sources;
the interrupt causes the state machine of section 4.1 reacts to. -/
inductive InterruptCause
  | AckReceived
  | NackReceived
  | ArbitrationLost
  | ByteReceived (byte : Nat)
  | BusError
  deriving DecidableEq, Repr

/-- Modelled from the spec: the driver `twi_master_driver.c` is not among the sources;
the driver of one bus: its `BusState`, the phase of the state machine, whether an
address phase is the read sub-phase of a `WriteThenRead`, and the bus operations
issued so far. -/
structure Driver where
  bus : BusState
  phase : Phase
  readSubPhase : Bool
  issued : List BusOp
  deriving DecidableEq, Repr

/-- Modelled from the spec: the driver `twi_master_driver.c` is not among the sources;
the state created once at system initialization (section 3, lifecycle). -/
def Driver.init : Driver :=
  { bus := { currentTransaction := none, retryCount := 0, busy := false },
    phase := .Idle, readSubPhase := false, issued := [] }

/-- Modelled from the spec: the driver `twi_master_driver.c` is not among the sources;
outcome of `submit` (section 4.1). -/
inductive SubmitResult
  | Accepted
  | Busy
  deriving DecidableEq, Repr

/-- Modelled from the spec: the driver `twi_master_driver.c` is not among the sources;
`submit` of section 4.1: it fails with `Busy` while a transaction is in flight,
otherwise stores the transaction as current, sets `busy`, sets the status to
`InProgress`, and issues a start condition with the read bit per direction.
`retryCount` counts the retries of the current transaction and is reset between
transactions (section 3), so an accepted transaction starts with zero retries. -/
def submit (d : Driver) (t : TransactionDescriptor) : SubmitResult × Driver :=
  if d.bus.busy then (.Busy, d)
  else
    (.Accepted,
      { bus :=
          { currentTransaction := some { t with status := .InProgress },
            retryCount := 0, busy := true },
        phase := .AddressPhase, readSubPhase := false,
        issued := d.issued ++ [.setStartCondition t.peripheralAddress (t.direction == .Read)] })

/-- Modelled from the spec: the driver `twi_master_driver.c` is not among the sources;
`poll` of section 4.1: the status of the in-flight or most recently completed
transaction, if there is one. -/
def poll (d : Driver) : Option TransactionStatus :=
  d.bus.currentTransaction.map (fun t => t.status)

/-- Modelled from the spec: the driver `twi_master_driver.c` is not among the sources;
reaching a terminal status (section 4.1): the status is set, the given operations are
issued, `busy` falls and the machine returns to `Idle`. -/
def Driver.finish (d : Driver) (t : TransactionDescriptor) (st : TransactionStatus)
    (ops : List BusOp) : Driver :=
  { d with
    bus := { d.bus with currentTransaction := some { t with status := st }, busy := false }
    phase := .Idle
    issued := d.issued ++ ops }

/-- Modelled from the spec: the driver `twi_master_driver.c` is not among the sources;
the `DataWritePhase` reaction to an ACK (section 4.1): shift out the next byte while
bytes remain; with the buffer exhausted, a `WriteThenRead` issues a repeated start and
enters the read sub-phase of the address phase, a plain `Write` stops with `Success`. -/
def Driver.dataWriteAck (d : Driver) (t : TransactionDescriptor) : Driver :=
  if h : t.bytesTransferred < t.writeBuffer.length then
    { d with
      bus := { d.bus with
        currentTransaction := some { t with bytesTransferred := t.bytesTransferred + 1 } }
      phase := .DataWritePhase
      issued := d.issued ++ [.writeDataRegister (t.writeBuffer.get ⟨t.bytesTransferred, h⟩)] }
  else
    match t.direction with
    | .WriteThenRead =>
      { d with
        bus := { d.bus with currentTransaction := some t }
        phase := .AddressPhase
        readSubPhase := true
        issued := d.issued ++ [.setStartCondition t.peripheralAddress true] }
    | .Write => d.finish t .Success [.setStopCondition]
    | .Read => d

/-- Modelled from the spec: the driver `twi_master_driver.c` is not among the sources;
`onInterrupt` of section 4.1 with the retry bound `max` as the policy constant.  The
ACK of the address byte of a write enters `DataWritePhase` and is the acknowledgement
after which the first data byte is shifted out; `bytesTransferred` counts within the
current phase and restarts at zero when a data phase is entered.  A bus error is
surfaced as `BusError` (section 7).  Where section 4.1 lists no transition the state
is left as it is. -/
def onInterrupt (max : Nat) (d : Driver) (cause : InterruptCause) : Driver :=
  match d.bus.currentTransaction with
  | none => d
  | some t =>
    match d.phase, cause with
    | .AddressPhase, .AckReceived =>
      if t.direction ≠ .Read ∧ d.readSubPhase = false then
        d.dataWriteAck { t with bytesTransferred := 0 }
      else
        { d with
          bus := { d.bus with currentTransaction := some { t with bytesTransferred := 0 } }
          phase := .DataReadPhase }
    | .AddressPhase, .NackReceived => d.finish t .Nack [.setStopCondition]
    | .AddressPhase, .ArbitrationLost =>
      if d.bus.retryCount + 1 < max then
        { d with
          bus := { d.bus with retryCount := d.bus.retryCount + 1 }
          issued := d.issued ++
            [.setStartCondition t.peripheralAddress (t.direction == .Read || d.readSubPhase)] }
      else
        { d with bus := { d.bus with retryCount := d.bus.retryCount + 1 } }.finish t
          .ArbitrationLost []
    | .DataWritePhase, .AckReceived => d.dataWriteAck t
    | .DataWritePhase, .NackReceived => d.finish t .Nack [.setStopCondition]
    | .DataReadPhase, .ByteReceived b =>
      let t := { t with readBuffer := t.readBuffer ++ [b],
                        bytesTransferred := t.bytesTransferred + 1 }
      if t.bytesTransferred < t.readCapacity then
        { d with
          bus := { d.bus with currentTransaction := some t }
          issued := d.issued ++ [.ackNextByte] }
      else
        d.finish t .Success [.nackNextByte, .setStopCondition]
    | .Idle, _ => d
    | _, .BusError => d.finish t .BusError []
    | _, _ => d

/-- Modelled from the spec: the driver `twi_master_driver.c` is not among the sources;
a valid transaction (sections 3 and 4.1): a 7-bit address and at least one byte to
write or to read. -/
def TransactionDescriptor.Valid (t : TransactionDescriptor) : Prop :=
  t.peripheralAddress < 128 ∧ t.writeBuffer.length + t.readCapacity > 0

instance (t : TransactionDescriptor) : Decidable t.Valid := by
  unfold TransactionDescriptor.Valid; infer_instance

/-- A bus that acknowledges everything except that it loses arbitration on the start
attempts `loses` selects: the attempts, first starts, re-issued starts and repeated
starts alike, are numbered from zero in the order the bus answers them.  `attempts`
and `lost` count the start attempts answered and the arbitration losses raised so
far; in a read the bus delivers the bytes `incoming 0`, `incoming 1`, and so on. -/
structure Bus where
  loses : Nat → Bool
  attempts : Nat
  lost : Nat
  incoming : Nat → Nat
  delivered : Nat

/-- The bus at the start of a transaction: nothing answered, lost or delivered yet. -/
def Bus.fresh (loses : Nat → Bool) (incoming : Nat → Nat) : Bus :=
  { loses := loses, attempts := 0, lost := 0, incoming := incoming, delivered := 0 }

/-- The interrupt cause such a bus raises next, given the phase of the driver; none
while the driver is idle. -/
def Bus.next (b : Bus) : Phase → Option (InterruptCause × Bus)
  | .Idle => none
  | .AddressPhase =>
    if b.loses b.attempts then
      some (.ArbitrationLost, { b with attempts := b.attempts + 1, lost := b.lost + 1 })
    else some (.AckReceived, { b with attempts := b.attempts + 1 })
  | .DataWritePhase => some (.AckReceived, b)
  | .DataReadPhase =>
    some (.ByteReceived (b.incoming b.delivered), { b with delivered := b.delivered + 1 })

/-- Up to `n` interrupts of the driver against such a bus. -/
def simulate (max : Nat) : Nat → Driver × Bus → Driver × Bus
  | 0, x => x
  | n + 1, (d, b) =>
    match b.next d.phase with
    | none => (d, b)
    | some (cause, b1) => simulate max n (onInterrupt max d cause, b1)

/-- Interrupts within which every transaction against such a bus has ended when the
retry bound is `max`. -/
def interruptBound (max : Nat) (t : TransactionDescriptor) : Nat :=
  max + t.writeBuffer.length + t.readCapacity + 2

/-- The run of the driver against the bus ends within `N` interrupts: the state
machine is back in `Idle` with `busy` false, `retryCount` equals the number of
arbitration losses the bus has raised, the status is `Success` when that number is
below `max` and `ArbitrationLost` when it has reached `max`; and when the bus loses
no start attempt from now on, the number of losses stays what it is. -/
def Settles (max : Nat) (d : Driver) (b : Bus) (N : Nat) : Prop :=
  ∃ n, n ≤ N ∧ (simulate max n (d, b)).1.phase = Phase.Idle ∧
    (simulate max n (d, b)).1.bus.busy = false ∧
    (simulate max n (d, b)).1.bus.retryCount = (simulate max n (d, b)).2.lost ∧
    ((simulate max n (d, b)).2.lost < max →
      poll (simulate max n (d, b)).1 = some TransactionStatus.Success) ∧
    (max ≤ (simulate max n (d, b)).2.lost →
      poll (simulate max n (d, b)).1 = some TransactionStatus.ArbitrationLost) ∧
    ((∀ i, b.attempts ≤ i → b.loses i = false) → (simulate max n (d, b)).2.lost = b.lost)

/-! ## Timer/counter hardware -/

/-- Device header: normal waveform generation mode. -/
def TC_WGMODE_NORMAL_gc : Nat := 0x00

/-- Device header: clock selection group mask of `CTRLA`. -/
def TC0_CLKSEL_gm : Nat := 0x0F

/-- Device behaviour (data sheet chapter 14, the chapter the source cites): one tick
of the 16-bit counter counting up with TOP `top`.  The counter counts from zero to
TOP; on the tick after it has reached TOP it restarts from zero and the overflow
interrupt flag is raised. -/
def tcTick (top cnt : Nat) : Nat × Bool :=
  if cnt = top then (0, true) else ((cnt + 1) % 2 ^ 16, false)

/-- Ticks from counter value `cnt` up to and including the tick that raises the
overflow, added to the `elapsed` ticks; looked for during at most `fuel` ticks. -/
def ticksToOverflow (top : Nat) : Nat → Nat → Nat → Option Nat
  | 0, _, _ => none
  | fuel + 1, cnt, elapsed =>
    match tcTick top cnt with
    | (_, true) => some (elapsed + 1)
    | (next, false) => ticksToOverflow top fuel next (elapsed + 1)

/-- Device behaviour (data sheet chapters 8 and 14): system clock cycles from one
overflow of timer E0 to the next under the register contents `regs`.  The timer is
clocked only while its bit in the port E power-reduction register is clear; it counts
prescaled clock ticks up to TOP = `PER` in the normal and single-slope modes with no
event action.  No period is given for the other configurations. -/
def TCE0_overflowPeriod (regs : Reg → Nat) : Option Nat :=
  if (regs Reg.PR_PRPE).testBit PR_TC0_bp then none
  else if regs Reg.TCE0_CTRLD &&& TC0_EVACT_gm ≠ TC_EVACT_OFF_gc then none
  else if regs Reg.TCE0_CTRLB &&& TC0_WGMODE_gm ≠ TC_WGMODE_NORMAL_gc ∧
      regs Reg.TCE0_CTRLB &&& TC0_WGMODE_gm ≠ TC_WGMODE_SINGLESLOPE_gc then none
  else
    match clkselDivisor (regs Reg.TCE0_CTRLA &&& TC0_CLKSEL_gm) with
    | none => none
    | some n => (ticksToOverflow (regs Reg.TCE0_PER) (2 ^ 16) 0 0).map (fun ticks => n * ticks)

/-- Invariant of the interleaving of main flow and timer interrupt: the flag is 0 or 1,
and every increment done, being done, or announced by a set flag is covered by an
interrupt that has run. -/
def LoopInv (s : LoopState) : Prop :=
  s.ItsTime ≤ 1 ∧
  match s.pc with
  | .test => s.increments + s.ItsTime ≤ s.overflows
  | .clear => s.increments + 1 ≤ s.overflows
  | .incr => s.increments + 1 + s.ItsTime ≤ s.overflows
  | .report => s.increments + s.ItsTime ≤ s.overflows

/-! ## Sample inputs -/

/-- A register file with every register zero. -/
def zeroRegs : Reg → Nat := fun _ => 0

/-- An oscillator status that never shows a ready bit. -/
def oscNever : Nat → Nat := fun _ => 0

/-- An oscillator status whose first two reads show nothing and later reads show every
oscillator ready. -/
def oscLate : Nat → Nat := fun i => if i < 2 then 0 else 0xFF

/-- Neutral settings, all zero. -/
def zeroSettings : NeutralSettings := ⟨0, 0, 0, 0, 0, 0, 0, 0, 0⟩

/-- The write of two bytes to the colour sensor at address 0x29 (section 8). -/
def sampleWrite : TransactionDescriptor :=
  { peripheralAddress := 0x29, direction := .Write, writeBuffer := [0x80, 0x03],
    readBuffer := [], readCapacity := 0, bytesTransferred := 0, status := .Pending }

/-- A write of one register pointer followed by a read of four bytes (section 8). -/
def sampleWriteThenRead : TransactionDescriptor :=
  { peripheralAddress := 0x29, direction := .WriteThenRead, writeBuffer := [0x00],
    readBuffer := [], readCapacity := 4, bytesTransferred := 0, status := .Pending }

/-- Start attempts 0 and 2 lose arbitration: for `sampleWriteThenRead` the first start
and the repeated start. -/
def losesTwice : Nat → Bool := fun i => i == 0 || i == 2

/-- Every start attempt but the second loses arbitration. -/
def losesAllButSecond : Nat → Bool := fun i => i != 1

/-- A peripheral that sends the byte `10 + i` as its `i`-th byte. -/
def sampleIncoming : Nat → Nat := fun i => 10 + i

/-- A loop state with the flag set. -/
def flagSet : LoopState := { loopEntry with ItsTime := 1 }

/-! # Theorems -/

/-! ## Bit lemmas -/

theorem testBit_clear_mask8 (x bp i : Nat) (hi : i < 8) :
    ((x &&& ((2 ^ 8 - 1) ^^^ 1 <<< bp)) % 2 ^ 8).testBit i
      = (decide (i ≠ bp) && x.testBit i) := by
  rw [Nat.testBit_mod_two_pow, Nat.testBit_and, Nat.testBit_xor, Nat.testBit_two_pow_sub_one,
    Nat.one_shiftLeft, Nat.testBit_two_pow]
  by_cases h : bp = i
  · subst h; simp [hi]
  · have h' : ¬ i = bp := fun e => h e.symm
    simp [hi, h, h']

theorem testBit_set_mask8 (x bp i : Nat) (hi : i < 8) :
    ((x ||| 1 <<< bp) % 2 ^ 8).testBit i = (decide (i = bp) || x.testBit i) := by
  rw [Nat.testBit_mod_two_pow, Nat.testBit_or, Nat.one_shiftLeft, Nat.testBit_two_pow]
  by_cases h : bp = i
  · subst h; simp [hi]
  · have h' : ¬ i = bp := fun e => h e.symm
    simp [hi, h, h', Bool.or_comm]

/-! ## `timer_counter_E0_init` -/

/-- Claim C10: `timer_counter_E0_init` leaves `PR_PRPE` and every power-reduction
register other than `PR_PRPC` as it was, and in `PR_PRPC` it clears the TC0 bit and keeps
the other bits; a TC0 power-reduction bit set for port E before the call is still set
after it. -/
theorem timer_counter_E0_init_power_reduction (osc : Nat → Nat) (m : Machine) :
    (timer_counter_E0_init osc m).regs Reg.PR_PRPE = m.regs Reg.PR_PRPE ∧
    (∀ r ∈ [Reg.PR_PRGEN, Reg.PR_PRPA, Reg.PR_PRPB, Reg.PR_PRPD, Reg.PR_PRPE, Reg.PR_PRPF],
      (timer_counter_E0_init osc m).regs r = m.regs r) ∧
    (∀ i, i < 8 → ((timer_counter_E0_init osc m).regs Reg.PR_PRPC).testBit i
        = (decide (i ≠ PR_TC0_bp) && (m.regs Reg.PR_PRPC).testBit i)) ∧
    ((m.regs Reg.PR_PRPE).testBit PR_TC0_bp = true →
      ((timer_counter_E0_init osc m).regs Reg.PR_PRPE).testBit PR_TC0_bp = true) := by
  have hE : (timer_counter_E0_init osc m).regs Reg.PR_PRPE = m.regs Reg.PR_PRPE := by
    simp [timer_counter_E0_init, ClearBit, Machine.write, Machine.afterRead]
  refine ⟨hE, ?_, ?_, ?_⟩
  · intro r hr
    simp only [List.mem_cons, List.mem_singleton, List.not_mem_nil, or_false] at hr
    rcases hr with h | h | h | h | h | h <;> subst h <;>
      simp [timer_counter_E0_init, ClearBit, Machine.write, Machine.afterRead]
  · intro i hi
    have : (timer_counter_E0_init osc m).regs Reg.PR_PRPC
        = (m.regs Reg.PR_PRPC &&& ((2 ^ 8 - 1) ^^^ 1 <<< PR_TC0_bp)) % 2 ^ 8 := by
      simp [timer_counter_E0_init, ClearBit, Machine.write, Machine.afterRead, Machine.peek,
        Reg.width]
    rw [this]
    exact testBit_clear_mask8 _ _ _ hi
  · intro h; rw [hE]; exact h

/-- Witness for C10 on a register file with every bit of the 8-bit registers set. -/
theorem timer_counter_E0_init_power_reduction_witness :
    ((Machine.start (fun _ => 0xFF)).regs Reg.PR_PRPE).testBit PR_TC0_bp = true ∧
    ((timer_counter_E0_init oscNever (Machine.start (fun _ => 0xFF))).regs
      Reg.PR_PRPE).testBit PR_TC0_bp = true ∧
    (1 < 8 ∧ ((timer_counter_E0_init oscNever (Machine.start (fun _ => 0xFF))).regs
      Reg.PR_PRPC).testBit 1
        = (decide (1 ≠ PR_TC0_bp) &&
            ((Machine.start (fun _ => 0xFF)).regs Reg.PR_PRPC).testBit 1)) :=
  ⟨by decide,
    (timer_counter_E0_init_power_reduction oscNever (Machine.start (fun _ => 0xFF))).2.2.2
      (by decide),
    by decide,
    (timer_counter_E0_init_power_reduction oscNever (Machine.start (fun _ => 0xFF))).2.2.1 1
      (by decide)⟩

theorem ticksToOverflow_eq (top : Nat) (htop : top < 2 ^ 16) :
    ∀ fuel cnt elapsed, cnt ≤ top → top - cnt < fuel →
      ticksToOverflow top fuel cnt elapsed = some (elapsed + (top - cnt) + 1) := by
  intro fuel
  induction fuel with
  | zero => intro cnt elapsed _ h; omega
  | succ fuel ih =>
    intro cnt elapsed hle hfuel
    by_cases h : cnt = top
    · subst h
      simp [ticksToOverflow, tcTick]
    · have htop' : top < 65536 := htop
      have hmod : (cnt + 1) % 2 ^ 16 = cnt + 1 := Nat.mod_eq_of_lt (by omega)
      have hstep : tcTick top cnt = (cnt + 1, false) := by
        unfold tcTick
        rw [if_neg h, hmod]
      simp only [ticksToOverflow, hstep]
      rw [ih (cnt + 1) (elapsed + 1) (by omega) (by omega)]
      congr 1
      omega

theorem E0_TCE0_CTRLA (osc : Nat → Nat) (m : Machine) :
    (timer_counter_E0_init osc m).regs Reg.TCE0_CTRLA = 7 := by
  simp [timer_counter_E0_init, ClearBit, Machine.write, Machine.afterRead, Reg.width,
    TC_CLKSEL_DIV1024_gc]

theorem E0_TCE0_CTRLB (osc : Nat → Nat) (m : Machine) :
    (timer_counter_E0_init osc m).regs Reg.TCE0_CTRLB = 3 := by
  simp [timer_counter_E0_init, ClearBit, Machine.write, Machine.afterRead, Reg.width,
    TC_WGMODE_SINGLESLOPE_gc]

theorem E0_TCE0_CTRLD (osc : Nat → Nat) (m : Machine) :
    (timer_counter_E0_init osc m).regs Reg.TCE0_CTRLD = 0 := by
  simp [timer_counter_E0_init, ClearBit, Machine.write, Machine.afterRead, Reg.width,
    TC_EVSEL_OFF_gc, TC_EVACT_OFF_gc]

theorem E0_TCE0_INTCTRLA (osc : Nat → Nat) (m : Machine) :
    (timer_counter_E0_init osc m).regs Reg.TCE0_INTCTRLA = 1 := by
  simp [timer_counter_E0_init, ClearBit, Machine.write, Machine.afterRead, Reg.width,
    TC_OVFINTLVL_LO_gc]

theorem E0_TCE0_PER (osc : Nat → Nat) (m : Machine) :
    (timer_counter_E0_init osc m).regs Reg.TCE0_PER = 31250 := by
  simp [timer_counter_E0_init, ClearBit, Machine.write, Machine.afterRead, Reg.width]

theorem E0_PR_PRPE (osc : Nat → Nat) (m : Machine) :
    (timer_counter_E0_init osc m).regs Reg.PR_PRPE = m.regs Reg.PR_PRPE := by
  simp [timer_counter_E0_init, ClearBit, Machine.write, Machine.afterRead]

/-- In the single-slope mode with no event action, prescaler 1024 and the timer
clocked, the overflow period is `1024 * (PER + 1)` cycles. -/
theorem overflowPeriod_single_slope (regs : Reg → Nat)
    (hpr : (regs Reg.PR_PRPE).testBit PR_TC0_bp = false)
    (hA : regs Reg.TCE0_CTRLA = 7) (hB : regs Reg.TCE0_CTRLB = 3) (hD : regs Reg.TCE0_CTRLD = 0)
    (hper : regs Reg.TCE0_PER < 2 ^ 16) :
    TCE0_overflowPeriod regs = some (1024 * (regs Reg.TCE0_PER + 1)) := by
  have hticks := ticksToOverflow_eq (regs Reg.TCE0_PER) hper (2 ^ 16) 0 0 (Nat.zero_le _)
    (by omega)
  have h1 : (0 : Nat) &&& TC0_EVACT_gm = TC_EVACT_OFF_gc := by decide
  have h2 : (3 : Nat) &&& TC0_WGMODE_gm = TC_WGMODE_SINGLESLOPE_gc := by decide
  have h3 : clkselDivisor (7 &&& TC0_CLKSEL_gm) = some 1024 := by decide
  simp only [TCE0_overflowPeriod, hpr, hA, hB, hD, h1, h2, h3, hticks]
  simp

/-- Claim C5: `timer_counter_E0_init` selects the divide-by-1024 prescaler, single-slope
mode with no event action, the overflow interrupt at low level, and writes the TOP count
31250 = 0x7A12, which fits the 16-bit register and times 1024 is 32,000,000.  The counter
takes `PER + 1` ticks from overflow to overflow, so with the timer clocked one overflow
period is 32,001,024 system clock cycles, 1024 more than the one second the routine aims
at; and when the port E power-reduction bit of the timer is set, which the routine leaves
as it is, the timer is not clocked and has no overflow period. -/
theorem timer_counter_E0_init_overflow_period (osc : Nat → Nat) (m : Machine) :
    (timer_counter_E0_init osc m).regs Reg.TCE0_CTRLA = TC_CLKSEL_DIV1024_gc ∧
    clkselDivisor ((timer_counter_E0_init osc m).regs Reg.TCE0_CTRLA) = some 1024 ∧
    (timer_counter_E0_init osc m).regs Reg.TCE0_PER = 31250 ∧
    (timer_counter_E0_init osc m).regs Reg.TCE0_PER = 0x7A12 ∧
    (timer_counter_E0_init osc m).regs Reg.TCE0_PER < 2 ^ 16 ∧
    1024 * (timer_counter_E0_init osc m).regs Reg.TCE0_PER = F_CPU ∧
    (timer_counter_E0_init osc m).regs Reg.TCE0_INTCTRLA = TC_OVFINTLVL_LO_gc ∧
    ((m.regs Reg.PR_PRPE).testBit PR_TC0_bp = false →
      TCE0_overflowPeriod (timer_counter_E0_init osc m).regs = some (F_CPU + 1024)) ∧
    ((m.regs Reg.PR_PRPE).testBit PR_TC0_bp = true →
      TCE0_overflowPeriod (timer_counter_E0_init osc m).regs = none) ∧
    TCE0_overflowPeriod (timer_counter_E0_init osc m).regs ≠ some F_CPU := by
  have hA := E0_TCE0_CTRLA osc m
  have hB := E0_TCE0_CTRLB osc m
  have hD := E0_TCE0_CTRLD osc m
  have hI := E0_TCE0_INTCTRLA osc m
  have hP := E0_TCE0_PER osc m
  have hE := E0_PR_PRPE osc m
  have hclear : (m.regs Reg.PR_PRPE).testBit PR_TC0_bp = false →
      TCE0_overflowPeriod (timer_counter_E0_init osc m).regs = some (F_CPU + 1024) := by
    intro hpr
    rw [overflowPeriod_single_slope _ (by rw [hE]; exact hpr) hA hB hD (by rw [hP]; decide), hP]
    rfl
  have hset : (m.regs Reg.PR_PRPE).testBit PR_TC0_bp = true →
      TCE0_overflowPeriod (timer_counter_E0_init osc m).regs = none := by
    intro hpr
    simp [TCE0_overflowPeriod, hE, hpr]
  refine ⟨by rw [hA]; rfl, by rw [hA]; rfl, hP, by rw [hP], by rw [hP]; decide,
    by rw [hP]; rfl, by rw [hI]; rfl, hclear, hset, ?_⟩
  cases hpr : (m.regs Reg.PR_PRPE).testBit PR_TC0_bp
  · rw [hclear hpr]; decide
  · rw [hset hpr]; simp

/-- Witness for C5: from the all-zero register file the period is 32,001,024 cycles;
from a register file with the port E power-reduction bit set there is none. -/
theorem timer_counter_E0_init_overflow_period_witness :
    ((Machine.start zeroRegs).regs Reg.PR_PRPE).testBit PR_TC0_bp = false ∧
    TCE0_overflowPeriod (timer_counter_E0_init oscNever (Machine.start zeroRegs)).regs
      = some (F_CPU + 1024) ∧
    ((Machine.start (fun _ => 0xFF)).regs Reg.PR_PRPE).testBit PR_TC0_bp = true ∧
    TCE0_overflowPeriod (timer_counter_E0_init oscNever (Machine.start (fun _ => 0xFF))).regs
      = none :=
  ⟨by decide,
    (timer_counter_E0_init_overflow_period oscNever (Machine.start zeroRegs)).2.2.2.2.2.2.2.1
      (by decide),
    by decide,
    (timer_counter_E0_init_overflow_period oscNever
      (Machine.start (fun _ => 0xFF))).2.2.2.2.2.2.2.2.1 (by decide)⟩

/-- With TOP count 31249 in place of 31250 the same configuration gives an overflow
period of exactly one second of the system clock. -/
theorem one_hertz_needs_top_31249 (osc : Nat → Nat) (m : Machine)
    (hpr : (m.regs Reg.PR_PRPE).testBit PR_TC0_bp = false) :
    TCE0_overflowPeriod
      (fun r => if r = Reg.TCE0_PER then 31249 else (timer_counter_E0_init osc m).regs r)
      = some F_CPU := by
  rw [overflowPeriod_single_slope _ (by simpa [E0_PR_PRPE] using hpr)
    (by simp [E0_TCE0_CTRLA]) (by simp [E0_TCE0_CTRLB]) (by simp [E0_TCE0_CTRLD]) (by simp)]
  simp [F_CPU]

/-! ## `timer_counter_C0_C1_D0_init` -/

theorem C0_C1_D0_TCC0_CTRLB (osc : Nat → Nat) (g : NeutralSettings) (topcount : Nat)
    (m : Machine) :
    (timer_counter_C0_C1_D0_init osc g topcount m).regs Reg.TCC0_CTRLB = 0xF3 := by
  simp [timer_counter_C0_C1_D0_init, ClearBit, Machine.write, Machine.afterRead, Reg.width,
    TC0_CCAEN_bm, TC0_CCBEN_bm, TC0_CCCEN_bm, TC0_CCDEN_bm, TC_WGMODE_SINGLESLOPE_gc]

theorem C0_C1_D0_TCC1_CTRLB (osc : Nat → Nat) (g : NeutralSettings) (topcount : Nat)
    (m : Machine) :
    (timer_counter_C0_C1_D0_init osc g topcount m).regs Reg.TCC1_CTRLB = 0x33 := by
  simp [timer_counter_C0_C1_D0_init, ClearBit, Machine.write, Machine.afterRead, Reg.width,
    TC1_CCAEN_bm, TC1_CCBEN_bm, TC_WGMODE_SINGLESLOPE_gc]

theorem C0_C1_D0_TCD0_CTRLB (osc : Nat → Nat) (g : NeutralSettings) (topcount : Nat)
    (m : Machine) :
    (timer_counter_C0_C1_D0_init osc g topcount m).regs Reg.TCD0_CTRLB = 0xF3 := by
  simp [timer_counter_C0_C1_D0_init, ClearBit, Machine.write, Machine.afterRead, Reg.width,
    TC0_CCAEN_bm, TC0_CCBEN_bm, TC0_CCCEN_bm, TC0_CCDEN_bm, TC_WGMODE_SINGLESLOPE_gc]

theorem C0_C1_D0_TCC0_CTRLD (osc : Nat → Nat) (g : NeutralSettings) (topcount : Nat)
    (m : Machine) :
    (timer_counter_C0_C1_D0_init osc g topcount m).regs Reg.TCC0_CTRLD = 0 := by
  simp [timer_counter_C0_C1_D0_init, ClearBit, Machine.write, Machine.afterRead, Reg.width,
    TC_EVACT_OFF_gc, TC_EVSEL_OFF_gc]

theorem C0_C1_D0_TCC1_CTRLD (osc : Nat → Nat) (g : NeutralSettings) (topcount : Nat)
    (m : Machine) :
    (timer_counter_C0_C1_D0_init osc g topcount m).regs Reg.TCC1_CTRLD = 0 := by
  simp [timer_counter_C0_C1_D0_init, ClearBit, Machine.write, Machine.afterRead, Reg.width,
    TC_EVACT_OFF_gc, TC_EVSEL_OFF_gc]

theorem C0_C1_D0_TCD0_CTRLD (osc : Nat → Nat) (g : NeutralSettings) (topcount : Nat)
    (m : Machine) :
    (timer_counter_C0_C1_D0_init osc g topcount m).regs Reg.TCD0_CTRLD = 0 := by
  simp [timer_counter_C0_C1_D0_init, ClearBit, Machine.write, Machine.afterRead, Reg.width,
    TC_EVACT_OFF_gc, TC_EVSEL_OFF_gc]

theorem C0_C1_D0_PORTC_DIR (osc : Nat → Nat) (g : NeutralSettings) (topcount : Nat)
    (m : Machine) :
    (timer_counter_C0_C1_D0_init osc g topcount m).regs Reg.PORTC_DIR = 0x3F := by
  simp [timer_counter_C0_C1_D0_init, ClearBit, Machine.write, Machine.afterRead, Reg.width]

theorem C0_C1_D0_PORTD_DIR (osc : Nat → Nat) (g : NeutralSettings) (topcount : Nat)
    (m : Machine) :
    (timer_counter_C0_C1_D0_init osc g topcount m).regs Reg.PORTD_DIR = 0x07 := by
  simp [timer_counter_C0_C1_D0_init, ClearBit, Machine.write, Machine.afterRead, Reg.width]

theorem C0_C1_D0_TCC0_PER (osc : Nat → Nat) (g : NeutralSettings) (topcount : Nat)
    (m : Machine) :
    (timer_counter_C0_C1_D0_init osc g topcount m).regs Reg.TCC0_PER = topcount % 2 ^ 16 := by
  simp [timer_counter_C0_C1_D0_init, ClearBit, Machine.write, Machine.afterRead, Reg.width]

theorem C0_C1_D0_TCC1_PER (osc : Nat → Nat) (g : NeutralSettings) (topcount : Nat)
    (m : Machine) :
    (timer_counter_C0_C1_D0_init osc g topcount m).regs Reg.TCC1_PER = topcount % 2 ^ 16 := by
  simp [timer_counter_C0_C1_D0_init, ClearBit, Machine.write, Machine.afterRead, Reg.width]

theorem C0_C1_D0_TCD0_PER (osc : Nat → Nat) (g : NeutralSettings) (topcount : Nat)
    (m : Machine) :
    (timer_counter_C0_C1_D0_init osc g topcount m).regs Reg.TCD0_PER = topcount % 2 ^ 16 := by
  simp [timer_counter_C0_C1_D0_init, ClearBit, Machine.write, Machine.afterRead, Reg.width]

/-- Claim C6: for every 16-bit `topcount` and every initial register state, after
`timer_counter_C0_C1_D0_init` each channel given a neutral value meets the four data-sheet
requirements (single-slope mode selected, event action and source off, compare enable set,
port pin an output), and the `PER` register of all three timers equals `topcount`. -/
theorem timer_counter_C0_C1_D0_init_waveforms (osc : Nat → Nat) (g : NeutralSettings)
    (topcount : Nat) (m : Machine) (htop : topcount < 2 ^ 16) :
    (∀ c ∈ neutralChannels,
      c.waveformVisible (timer_counter_C0_C1_D0_init osc g topcount m).regs) ∧
    (∀ t : Timer, (timer_counter_C0_C1_D0_init osc g topcount m).regs t.per = topcount) := by
  constructor
  · intro c hc
    simp only [neutralChannels, List.mem_cons, List.mem_singleton, List.not_mem_nil,
      or_false] at hc
    rcases hc with h | h | h | h | h | h | h | h | h <;> subst h <;>
      simp only [Channel.waveformVisible, Timer.ctrlB, Timer.ctrlD, Timer.portDir,
        C0_C1_D0_TCC0_CTRLB, C0_C1_D0_TCC1_CTRLB, C0_C1_D0_TCD0_CTRLB, C0_C1_D0_TCC0_CTRLD,
        C0_C1_D0_TCC1_CTRLD, C0_C1_D0_TCD0_CTRLD, C0_C1_D0_PORTC_DIR, C0_C1_D0_PORTD_DIR] <;>
      decide
  · intro t
    cases t
    · exact (C0_C1_D0_TCC0_PER osc g topcount m).trans (Nat.mod_eq_of_lt htop)
    · exact (C0_C1_D0_TCC1_PER osc g topcount m).trans (Nat.mod_eq_of_lt htop)
    · exact (C0_C1_D0_TCD0_PER osc g topcount m).trans (Nat.mod_eq_of_lt htop)

/-- Witness for C6 with a TOP count of 10000 on the all-zero register file. -/
theorem timer_counter_C0_C1_D0_init_waveforms_witness :
    10000 < 2 ^ 16 ∧
    (∀ c ∈ neutralChannels,
      c.waveformVisible
        (timer_counter_C0_C1_D0_init oscNever zeroSettings 10000 (Machine.start zeroRegs)).regs) ∧
    (∀ t : Timer,
      (timer_counter_C0_C1_D0_init oscNever zeroSettings 10000 (Machine.start zeroRegs)).regs t.per
        = 10000) :=
  ⟨by decide,
    timer_counter_C0_C1_D0_init_waveforms oscNever zeroSettings 10000 (Machine.start zeroRegs)
      (by decide)⟩

/-! ## Traces -/

theorem OnlyAfter_nil (p q : Access → Bool) : OnlyAfter p q [] := by
  intro pre e post h
  simp at h

theorem OnlyAfter_append_of_not (p q : Access → Bool) (l l2 : List Access)
    (h : OnlyAfter p q l) (h2 : ∀ a ∈ l2, q a = false) : OnlyAfter p q (l ++ l2) := by
  intro pre e post heq hq
  rcases List.append_eq_append_iff.mp heq with ⟨a', hpre, hl2⟩ | ⟨c', hl, hc⟩
  · have : e ∈ l2 := by rw [hl2]; simp
    rw [h2 e this] at hq
    cases hq
  · cases c' with
    | nil =>
      have : e ∈ l2 := by
        simp only [List.nil_append] at hc
        rw [← hc]; simp
      rw [h2 e this] at hq
      cases hq
    | cons x c'' =>
      simp only [List.cons_append, List.cons.injEq] at hc
      obtain ⟨hx, _⟩ := hc
      subst hx
      exact h pre e c'' hl hq

theorem OnlyAfter_append_of_seen (p q : Access → Bool) (l l2 : List Access)
    (h : OnlyAfter p q l) (hp : ∃ a ∈ l, p a = true) : OnlyAfter p q (l ++ l2) := by
  intro pre e post heq hq
  rcases List.append_eq_append_iff.mp heq with ⟨a', hpre, hl2⟩ | ⟨c', hl, hc⟩
  · obtain ⟨a, ha, hpa⟩ := hp
    exact ⟨a, by rw [hpre]; simp [ha], hpa⟩
  · cases c' with
    | nil =>
      obtain ⟨a, ha, hpa⟩ := hp
      refine ⟨a, ?_, hpa⟩
      simp only [List.append_nil] at hl
      rw [← hl]; exact ha
    | cons x c'' =>
      simp only [List.cons_append, List.cons.injEq] at hc
      obtain ⟨hx, _⟩ := hc
      subst hx
      exact h pre e c'' hl hq

theorem reads_not_write (r : Reg) (rd : List Access)
    (h : ∀ a ∈ rd, ∃ v, a = Access.read Reg.OSC_STATUS v) :
    ∀ a ∈ rd, a.isWriteTo r = false := by
  intro a ha
  obtain ⟨v, hv⟩ := h a ha
  subst hv
  rfl

theorem OnlyAfter_of_none (p q : Access → Bool) (l : List Access)
    (h : ∀ a ∈ l, q a = false) : OnlyAfter p q l := by
  intro pre e post heq hq
  have : e ∈ l := by rw [heq]; simp
  rw [h e this] at hq
  cases hq

theorem OnlyAfter_snoc (p q : Access → Bool) (l : List Access) (e : Access)
    (h : OnlyAfter p q l) (he : q e = true → ∃ a ∈ l, p a = true) :
    OnlyAfter p q (l ++ [e]) := by
  by_cases hq : q e = true
  · exact OnlyAfter_append_of_seen p q l [e] h (he hq)
  · apply OnlyAfter_append_of_not p q l [e] h
    intro a ha
    rw [List.mem_singleton.mp ha]
    simpa using hq

theorem write_trace (m : Machine) (r : Reg) (v : Nat) :
    (m.write r v).trace = m.trace ++ [Access.write r (v % 2 ^ r.width)] := rfl

theorem afterRead_trace (osc : Nat → Nat) (m : Machine) (r : Reg) :
    (m.afterRead osc r).trace = m.trace ++ [Access.read r (m.peek osc r)] := rfl

theorem noWrite_write (q : Reg) (m : Machine) (r : Reg) (v : Nat)
    (h : ∀ a ∈ m.trace, a.isWriteTo q = false) (hr : (r == q) = false) :
    ∀ a ∈ (m.write r v).trace, a.isWriteTo q = false := by
  intro a ha
  rw [write_trace] at ha
  rcases List.mem_append.mp ha with h1 | h1
  · exact h a h1
  · rw [List.mem_singleton.mp h1]; exact hr

theorem noWrite_afterRead (osc : Nat → Nat) (q : Reg) (m : Machine) (r : Reg)
    (h : ∀ a ∈ m.trace, a.isWriteTo q = false) :
    ∀ a ∈ (m.afterRead osc r).trace, a.isWriteTo q = false := by
  intro a ha
  rw [afterRead_trace] at ha
  rcases List.mem_append.mp ha with h1 | h1
  · exact h a h1
  · rw [List.mem_singleton.mp h1]; rfl

theorem noWrite_append (q : Reg) (l rd : List Access)
    (h : ∀ a ∈ l, a.isWriteTo q = false)
    (hrd : ∀ a ∈ rd, ∃ v, a = Access.read Reg.OSC_STATUS v) :
    ∀ a ∈ l ++ rd, a.isWriteTo q = false := by
  intro a ha
  rcases List.mem_append.mp ha with h1 | h1
  · exact h a h1
  · exact reads_not_write q rd hrd a h1

theorem seen_write (p : Access → Bool) (m : Machine) (r : Reg) (v : Nat)
    (h : ∃ a ∈ m.trace, p a = true) : ∃ a ∈ (m.write r v).trace, p a = true := by
  obtain ⟨a, ha, hp⟩ := h
  exact ⟨a, by rw [write_trace]; exact List.mem_append_left _ ha, hp⟩

theorem seen_afterRead (osc : Nat → Nat) (p : Access → Bool) (m : Machine) (r : Reg)
    (h : ∃ a ∈ m.trace, p a = true) : ∃ a ∈ (m.afterRead osc r).trace, p a = true := by
  obtain ⟨a, ha, hp⟩ := h
  exact ⟨a, by rw [afterRead_trace]; exact List.mem_append_left _ ha, hp⟩

theorem onlyAfter_write (p : Access → Bool) (q : Reg) (m : Machine) (r : Reg) (v : Nat)
    (h : OnlyAfter p (Access.isWriteTo q) m.trace)
    (hr : (r == q) = true → ∃ a ∈ m.trace, p a = true) :
    OnlyAfter p (Access.isWriteTo q) (m.write r v).trace := by
  rw [write_trace]
  exact OnlyAfter_snoc _ _ _ _ h hr

theorem onlyAfter_afterRead (osc : Nat → Nat) (p : Access → Bool) (q : Reg) (m : Machine)
    (r : Reg) (h : OnlyAfter p (Access.isWriteTo q) m.trace) :
    OnlyAfter p (Access.isWriteTo q) (m.afterRead osc r).trace := by
  rw [afterRead_trace]
  exact OnlyAfter_snoc _ _ _ _ h (fun hq => by cases hq)

/-! ## The waiting loop -/

theorem doWhile_regs (osc : Nat → Nat) (r : Reg) (bp : Nat) :
    ∀ fuel m, (doWhileBitIsClear osc r bp fuel m).1.regs = m.regs := by
  intro fuel
  induction fuel with
  | zero => intro m; rfl
  | succ n ih =>
    intro m
    unfold doWhileBitIsClear
    split
    · rw [ih]; rfl
    · rfl

theorem doWhile_regs_eq (osc : Nat → Nat) (r : Reg) (bp fuel : Nat) (m m' : Machine) (ok : Bool)
    (h : doWhileBitIsClear osc r bp fuel m = (m', ok)) : m'.regs = m.regs := by
  have := doWhile_regs osc r bp fuel m
  rw [h] at this
  exact this

theorem doWhile_trace (osc : Nat → Nat) (bp : Nat) :
    ∀ fuel m, ∃ rd,
      (doWhileBitIsClear osc Reg.OSC_STATUS bp fuel m).1.trace = m.trace ++ rd ∧
      (∀ a ∈ rd, ∃ v, a = Access.read Reg.OSC_STATUS v) ∧
      ((doWhileBitIsClear osc Reg.OSC_STATUS bp fuel m).2 = true →
        ∃ a ∈ rd, a.isReadyRead bp = true) := by
  intro fuel
  induction fuel with
  | zero => intro m; exact ⟨[], by simp [doWhileBitIsClear]⟩
  | succ n ih =>
    intro m
    unfold doWhileBitIsClear
    split
    · obtain ⟨rd, h1, h2, h3⟩ := ih (m.afterRead osc Reg.OSC_STATUS)
      refine ⟨Access.read Reg.OSC_STATUS (m.peek osc Reg.OSC_STATUS) :: rd, ?_, ?_, ?_⟩
      · rw [h1]; simp [Machine.afterRead]
      · intro a ha
        rcases List.mem_cons.mp ha with h | h
        · exact ⟨_, h⟩
        · exact h2 a h
      · intro hret
        obtain ⟨a, ha, hpa⟩ := h3 hret
        exact ⟨a, List.mem_cons_of_mem _ ha, hpa⟩
    · rename_i hclear
      refine ⟨[Access.read Reg.OSC_STATUS (m.peek osc Reg.OSC_STATUS)], ?_, ?_, ?_⟩
      · simp [Machine.afterRead]
      · intro a ha
        exact ⟨_, List.mem_singleton.mp ha⟩
      · intro _
        refine ⟨_, List.mem_singleton.mpr rfl, ?_⟩
        simp [Access.isReadyRead, hclear]

theorem doWhile_never (osc : Nat → Nat) (bp : Nat)
    (hclear : ∀ i, BitIsClear (osc i) bp = true) :
    ∀ fuel m, (doWhileBitIsClear osc Reg.OSC_STATUS bp fuel m).2 = false := by
  intro fuel
  induction fuel with
  | zero => intro m; rfl
  | succ n ih =>
    intro m
    unfold doWhileBitIsClear
    have : BitIsClear (m.peek osc Reg.OSC_STATUS) bp = true := by
      simp [Machine.peek, hclear]
    rw [if_pos this]
    exact ih _

theorem doWhile_spec (osc : Nat → Nat) (bp fuel : Nat) (m m' : Machine) (ok : Bool)
    (h : doWhileBitIsClear osc Reg.OSC_STATUS bp fuel m = (m', ok)) :
    m'.regs = m.regs ∧
    ∃ rd, m'.trace = m.trace ++ rd ∧
      (∀ a ∈ rd, ∃ v, a = Access.read Reg.OSC_STATUS v) ∧
      (ok = true → ∃ a ∈ rd, a.isReadyRead bp = true) ∧
      ((∀ i, BitIsClear (osc i) bp = true) → ok = false) := by
  have h1 := doWhile_regs osc Reg.OSC_STATUS bp fuel m
  obtain ⟨rd, h2, h3, h4⟩ := doWhile_trace osc bp fuel m
  have h5 := doWhile_never osc bp
  rw [h] at h1 h2 h4
  refine ⟨h1, rd, h2, h3, h4, ?_⟩
  intro hc
  have := h5 hc fuel m
  rw [h] at this
  exact this

theorem doWhile_oscReads (osc : Nat → Nat) (bp : Nat) :
    ∀ fuel m i, m.oscReads ≤ i → i < m.oscReads + fuel → BitIsClear (osc i) bp = false →
      (doWhileBitIsClear osc Reg.OSC_STATUS bp fuel m).2 = true ∧
      m.oscReads ≤ (doWhileBitIsClear osc Reg.OSC_STATUS bp fuel m).1.oscReads ∧
      (doWhileBitIsClear osc Reg.OSC_STATUS bp fuel m).1.oscReads ≤ i + 1 := by
  intro fuel
  induction fuel with
  | zero => intro m i h1 h2; omega
  | succ n ih =>
    intro m i h1 h2 hi
    unfold doWhileBitIsClear
    split
    · rename_i hc
      have hne : m.oscReads ≠ i := by
        intro e
        simp [Machine.peek, e, hi] at hc
      have := ih (m.afterRead osc Reg.OSC_STATUS) i
        (by simp [Machine.afterRead]; omega) (by simp [Machine.afterRead]; omega) hi
      simp only [Machine.afterRead, if_true] at this ⊢
      obtain ⟨h3, h4, h5⟩ := this
      exact ⟨h3, by omega, h5⟩
    · simp [Machine.afterRead]; omega

theorem doWhile_oscReads_eq (osc : Nat → Nat) (bp fuel : Nat) (m m' : Machine) (ok : Bool)
    (h : doWhileBitIsClear osc Reg.OSC_STATUS bp fuel m = (m', ok)) (i : Nat)
    (h1 : m.oscReads ≤ i) (h2 : i < m.oscReads + fuel) (hi : BitIsClear (osc i) bp = false) :
    ok = true ∧ m.oscReads ≤ m'.oscReads ∧ m'.oscReads ≤ i + 1 := by
  have := doWhile_oscReads osc bp fuel m i h1 h2 hi
  rw [h] at this
  exact this

/-! ## `system_clock_init` -/

/-- Claim C7: for every sequence of values read from `OSC_STATUS` and every number of
reads, in the accesses made by `system_clock_init` a write to `CLK_CTRL` comes only after
a read of `OSC_STATUS` with `RC32MRDY` set and a write to `CLK_RTCCTRL` only after a read
with `XOSCRDY` set; when no read ever shows the ready bit the corresponding write never
happens; and when the function returns both writes have happened. -/
theorem system_clock_init_waits_for_ready (osc : Nat → Nat) (fuel : Nat) (regs : Reg → Nat) :
    OnlyAfter (Access.isReadyRead OSC_RC32MRDY_bp) (Access.isWriteTo Reg.CLK_CTRL)
      (system_clock_init osc fuel (Machine.start regs)).1.trace ∧
    OnlyAfter (Access.isReadyRead OSC_XOSCRDY_bp) (Access.isWriteTo Reg.CLK_RTCCTRL)
      (system_clock_init osc fuel (Machine.start regs)).1.trace ∧
    ((∀ i, BitIsClear (osc i) OSC_RC32MRDY_bp = true) →
      ∀ a ∈ (system_clock_init osc fuel (Machine.start regs)).1.trace,
        a.isWriteTo Reg.CLK_CTRL = false) ∧
    ((∀ i, BitIsClear (osc i) OSC_XOSCRDY_bp = true) →
      ∀ a ∈ (system_clock_init osc fuel (Machine.start regs)).1.trace,
        a.isWriteTo Reg.CLK_RTCCTRL = false) ∧
    ((system_clock_init osc fuel (Machine.start regs)).2 = true →
      Access.write Reg.CLK_RTCCTRL (CLK_RTCSRC_TOSC32_gc ||| CLK_RTCEN_bm) ∈
        (system_clock_init osc fuel (Machine.start regs)).1.trace ∧
      Access.write Reg.CLK_CTRL CLK_SCLKSEL_RC32M_gc ∈
        (system_clock_init osc fuel (Machine.start regs)).1.trace) := by
  unfold system_clock_init
  simp only [Machine.orAssign, SetBit, ClearBit]
  split
  · -- the first loop ran out of reads
    rename_i m2 heq
    obtain ⟨-, rd1, ht1, hr1, -, -⟩ := doWhile_spec osc _ fuel _ m2 false heq
    have hnoC : ∀ a ∈ m2.trace, a.isWriteTo Reg.CLK_CTRL = false := by
      rw [ht1]
      refine noWrite_append _ _ _ ?_ hr1
      repeat (first | refine noWrite_write _ _ _ _ ?_ rfl | refine noWrite_afterRead _ _ _ _ ?_)
      intro a ha; cases ha
    have hnoR : ∀ a ∈ m2.trace, a.isWriteTo Reg.CLK_RTCCTRL = false := by
      rw [ht1]
      refine noWrite_append _ _ _ ?_ hr1
      repeat (first | refine noWrite_write _ _ _ _ ?_ rfl | refine noWrite_afterRead _ _ _ _ ?_)
      intro a ha; cases ha
    exact ⟨OnlyAfter_of_none _ _ _ hnoC, OnlyAfter_of_none _ _ _ hnoR, fun _ => hnoC,
      fun _ => hnoR, fun h => by cases h⟩
  · rename_i m2 heq
    obtain ⟨-, rd1, ht1, hr1, hready1, hnever1⟩ := doWhile_spec osc _ fuel _ m2 true heq
    have hnoC : ∀ a ∈ m2.trace, a.isWriteTo Reg.CLK_CTRL = false := by
      rw [ht1]
      refine noWrite_append _ _ _ ?_ hr1
      repeat (first | refine noWrite_write _ _ _ _ ?_ rfl | refine noWrite_afterRead _ _ _ _ ?_)
      intro a ha; cases ha
    have hnoR : ∀ a ∈ m2.trace, a.isWriteTo Reg.CLK_RTCCTRL = false := by
      rw [ht1]
      refine noWrite_append _ _ _ ?_ hr1
      repeat (first | refine noWrite_write _ _ _ _ ?_ rfl | refine noWrite_afterRead _ _ _ _ ?_)
      intro a ha; cases ha
    have hseen1 : ∃ a ∈ m2.trace, a.isReadyRead OSC_XOSCRDY_bp = true := by
      obtain ⟨a, ha, hpa⟩ := hready1 rfl
      exact ⟨a, by rw [ht1]; exact List.mem_append_right _ ha, hpa⟩
    split
    · rename_i m3 heq2
      obtain ⟨-, rd2, ht2, hr2, -, -⟩ := doWhile_spec osc _ fuel _ m3 false heq2
      have hnoC3 : ∀ a ∈ m3.trace, a.isWriteTo Reg.CLK_CTRL = false := by
        rw [ht2]
        refine noWrite_append _ _ _ ?_ hr2
        repeat (first | refine noWrite_write _ _ _ _ ?_ rfl | refine noWrite_afterRead _ _ _ _ ?_)
        exact hnoC
      refine ⟨OnlyAfter_of_none _ _ _ hnoC3, ?_, fun _ => hnoC3, ?_, fun h => by cases h⟩
      · rw [ht2]
        apply OnlyAfter_append_of_not _ _ _ _ _ (reads_not_write _ _ hr2)
        repeat (first
          | refine onlyAfter_write _ _ _ _ _ ?_ (fun _ => ?_)
          | refine onlyAfter_afterRead _ _ _ _ _ ?_)
        · exact OnlyAfter_of_none _ _ _ hnoR
        all_goals
          repeat (first | apply seen_write | apply seen_afterRead)
          exact hseen1
      · intro hc
        have := hnever1 hc
        cases this
    · rename_i m3 heq2
      obtain ⟨-, rd2, ht2, hr2, hready2, hnever2⟩ := doWhile_spec osc _ fuel _ m3 true heq2
      have hnoC3 : ∀ a ∈ m3.trace, a.isWriteTo Reg.CLK_CTRL = false := by
        rw [ht2]
        refine noWrite_append _ _ _ ?_ hr2
        repeat (first | refine noWrite_write _ _ _ _ ?_ rfl | refine noWrite_afterRead _ _ _ _ ?_)
        exact hnoC
      have hseen2 : ∃ a ∈ m3.trace, a.isReadyRead OSC_RC32MRDY_bp = true := by
        obtain ⟨a, ha, hpa⟩ := hready2 rfl
        exact ⟨a, by rw [ht2]; exact List.mem_append_right _ ha, hpa⟩
      have hseen13 : ∃ a ∈ m3.trace, a.isReadyRead OSC_XOSCRDY_bp = true := by
        obtain ⟨a, ha, hpa⟩ := hseen1
        refine ⟨a, ?_, hpa⟩
        rw [ht2]
        apply List.mem_append_left
        simp [write_trace, afterRead_trace, ha]
      have hR3 : OnlyAfter (Access.isReadyRead OSC_XOSCRDY_bp) (Access.isWriteTo Reg.CLK_RTCCTRL)
          m3.trace := by
        rw [ht2]
        apply OnlyAfter_append_of_not _ _ _ _ _ (reads_not_write _ _ hr2)
        repeat (first
          | refine onlyAfter_write _ _ _ _ _ ?_ (fun _ => ?_)
          | refine onlyAfter_afterRead _ _ _ _ _ ?_)
        · exact OnlyAfter_of_none _ _ _ hnoR
        all_goals
          repeat (first | apply seen_write | apply seen_afterRead)
          exact hseen1
      refine ⟨?_, ?_, ?_, ?_, ?_⟩
      · repeat (first
          | refine onlyAfter_write _ _ _ _ _ ?_ (fun _ => ?_)
          | refine onlyAfter_afterRead _ _ _ _ _ ?_)
        · exact OnlyAfter_of_none _ _ _ hnoC3
        all_goals
          repeat (first | apply seen_write | apply seen_afterRead)
          exact hseen2
      · repeat (first
          | refine onlyAfter_write _ _ _ _ _ ?_ (fun _ => ?_)
          | refine onlyAfter_afterRead _ _ _ _ _ ?_)
        · exact hR3
        all_goals
          repeat (first | apply seen_write | apply seen_afterRead)
          exact hseen13
      · intro hc
        have := hnever2 hc
        cases this
      · intro hc
        have := hnever1 hc
        cases this
      · intro _
        simp [write_trace, afterRead_trace, ht2, Reg.width, CLK_RTCSRC_TOSC32_gc, CLK_RTCEN_bm,
          CLK_SCLKSEL_RC32M_gc]

/-- Witness for C7: an oscillator that never becomes ready within five reads, and one
that is ready from the third read on. -/
theorem system_clock_init_waits_for_ready_witness :
    (∀ i, BitIsClear (oscNever i) OSC_XOSCRDY_bp = true) ∧
    (∀ a ∈ (system_clock_init oscNever 5 (Machine.start zeroRegs)).1.trace,
      a.isWriteTo Reg.CLK_RTCCTRL = false) ∧
    (system_clock_init oscLate 5 (Machine.start zeroRegs)).2 = true ∧
    Access.write Reg.CLK_CTRL CLK_SCLKSEL_RC32M_gc ∈
      (system_clock_init oscLate 5 (Machine.start zeroRegs)).1.trace :=
  ⟨fun _ => by simp [BitIsClear, oscNever],
    (system_clock_init_waits_for_ready oscNever 5 zeroRegs).2.2.2.1
      (fun _ => by simp [BitIsClear, oscNever]),
    by decide,
    ((system_clock_init_waits_for_ready oscLate 5 zeroRegs).2.2.2.2 (by decide)).2⟩

theorem system_clock_init_OSC_CTRL_value (osc : Nat → Nat) (fuel : Nat) (m : Machine)
    (hret : (system_clock_init osc fuel m).2 = true) :
    (system_clock_init osc fuel m).1.regs Reg.OSC_CTRL =
      ((((m.regs Reg.OSC_CTRL ||| 1 <<< OSC_XOSCEN_bp) % 2 ^ 8 ||| 1 <<< OSC_RC32MEN_bp) % 2 ^ 8)
        &&& ((2 ^ 8 - 1) ^^^ 1 <<< OSC_RC2MEN_bp)) % 2 ^ 8 := by
  revert hret
  unfold system_clock_init
  simp only [Machine.orAssign, SetBit, ClearBit]
  split
  · intro h; cases h
  · rename_i m2 heq
    have h2 := doWhile_regs_eq _ _ _ _ _ _ _ heq
    split
    · intro h; cases h
    · rename_i m3 heq2
      have h3 := doWhile_regs_eq _ _ _ _ _ _ _ heq2
      intro _
      simp [Machine.write, Machine.afterRead, Machine.peek, h3, h2, Reg.width, OSC_XOSCEN_bm,
        OSC_XOSCEN_bp]

/-- When the environment shows the external oscillator ready at read `i` and the 32 MHz
oscillator ready at a later read `j`, `system_clock_init` returns within `j + 1` reads per
loop. -/
theorem system_clock_init_returns (osc : Nat → Nat) (regs : Reg → Nat) (i j : Nat) (hij : i < j)
    (hi : BitIsClear (osc i) OSC_XOSCRDY_bp = false)
    (hj : BitIsClear (osc j) OSC_RC32MRDY_bp = false) :
    (system_clock_init osc (j + 1) (Machine.start regs)).2 = true := by
  unfold system_clock_init
  simp only [Machine.orAssign, SetBit, ClearBit]
  split
  · rename_i m2 heq
    have := (doWhile_oscReads_eq osc _ _ _ _ _ heq i (by
      simp [Machine.write, Machine.afterRead, Machine.start]) (by
      simp [Machine.write, Machine.afterRead, Machine.start]; omega) hi).1
    cases this
  · rename_i m2 heq
    have h1 := (doWhile_oscReads_eq osc _ _ _ _ _ heq i (by
      simp [Machine.write, Machine.afterRead, Machine.start]) (by
      simp [Machine.write, Machine.afterRead, Machine.start]; omega) hi).2
    simp only [Machine.write, Machine.afterRead, Machine.start, if_false,
      show (Reg.VBAT_CTRL = Reg.OSC_STATUS) = False from by simp,
      show (Reg.OSC_CTRL = Reg.OSC_STATUS) = False from by simp] at h1
    split
    · rename_i m3 heq2
      have := (doWhile_oscReads_eq osc _ _ _ _ _ heq2 j (by
        simp [Machine.write, Machine.afterRead]; omega) (by
        simp [Machine.write, Machine.afterRead]; omega) hj).1
      cases this
    · rfl

/-- Claim C8: on every run of `system_clock_init` that returns, the final `OSC_CTRL` has
`XOSCEN` and `RC32MEN` set and `RC2MEN` clear, and every other bit of the 8-bit register
equals its initial value. -/
theorem system_clock_init_OSC_CTRL (osc : Nat → Nat) (fuel : Nat) (m : Machine)
    (hret : (system_clock_init osc fuel m).2 = true) :
    ((system_clock_init osc fuel m).1.regs Reg.OSC_CTRL).testBit OSC_XOSCEN_bp = true ∧
    ((system_clock_init osc fuel m).1.regs Reg.OSC_CTRL).testBit OSC_RC32MEN_bp = true ∧
    ((system_clock_init osc fuel m).1.regs Reg.OSC_CTRL).testBit OSC_RC2MEN_bp = false ∧
    (∀ i, i < 8 → i ≠ OSC_XOSCEN_bp → i ≠ OSC_RC32MEN_bp → i ≠ OSC_RC2MEN_bp →
      ((system_clock_init osc fuel m).1.regs Reg.OSC_CTRL).testBit i
        = (m.regs Reg.OSC_CTRL).testBit i) := by
  have key : ∀ i, i < 8 →
      ((system_clock_init osc fuel m).1.regs Reg.OSC_CTRL).testBit i
        = (decide (i ≠ OSC_RC2MEN_bp) &&
            (decide (i = OSC_RC32MEN_bp) ||
              (decide (i = OSC_XOSCEN_bp) || (m.regs Reg.OSC_CTRL).testBit i))) := by
    intro i hi
    rw [system_clock_init_OSC_CTRL_value osc fuel m hret, testBit_clear_mask8 _ _ _ hi,
      testBit_set_mask8 _ _ _ hi, testBit_set_mask8 _ _ _ hi]
  refine ⟨?_, ?_, ?_, ?_⟩
  · rw [key _ (by decide)]; simp [OSC_XOSCEN_bp, OSC_RC2MEN_bp]
  · rw [key _ (by decide)]; simp [OSC_RC32MEN_bp, OSC_RC2MEN_bp]
  · rw [key _ (by decide)]; simp
  · intro i hi h1 h2 h3
    rw [key i hi]; simp [h1, h2, h3]

/-- Witness for C8: a run that returns, from a register file with only `RC2MEN` set. -/
theorem system_clock_init_OSC_CTRL_witness :
    (system_clock_init oscLate 5 (Machine.start (fun _ => 0x01))).2 = true ∧
    ((system_clock_init oscLate 5 (Machine.start (fun _ => 0x01))).1.regs
      Reg.OSC_CTRL).testBit OSC_XOSCEN_bp = true ∧
    ((system_clock_init oscLate 5 (Machine.start (fun _ => 0x01))).1.regs
      Reg.OSC_CTRL).testBit OSC_RC2MEN_bp = false :=
  ⟨by decide,
    (system_clock_init_OSC_CTRL oscLate 5 (Machine.start (fun _ => 0x01)) (by decide)).1,
    (system_clock_init_OSC_CTRL oscLate 5 (Machine.start (fun _ => 0x01)) (by decide)).2.2.1⟩

/-! ## The main loop and the 1 Hz interrupt -/

/-- Claim C4: one iteration of the main loop is gated by `ItsTime` alone: with
`ItsTime = 1` it clears the flag, sets `seconds` to `(seconds + 1) mod 2^16` and performs
the prints and both sensor reads; otherwise flag, `seconds` and outputs stay as they
were. -/
theorem main_loop_gated_by_ItsTime (s : LoopState) :
    (s.ItsTime = 1 →
      (mainLoopIteration s).ItsTime = 0 ∧
      (mainLoopIteration s).seconds = (s.seconds + 1) % 2 ^ 16 ∧
      (mainLoopIteration s).performed = s.performed ++ report ((s.seconds + 1) % 2 ^ 16) ∧
      Output.DO_read ∈ (mainLoopIteration s).performed ∧
      Output.xmega_read_RGB_values ∈ (mainLoopIteration s).performed) ∧
    (s.ItsTime ≠ 1 →
      (mainLoopIteration s).ItsTime = s.ItsTime ∧
      (mainLoopIteration s).seconds = s.seconds ∧
      (mainLoopIteration s).performed = s.performed) := by
  constructor
  · intro h
    simp [mainLoopIteration, h, report]
  · intro h
    simp [mainLoopIteration, h]

/-- Witness for C4: an iteration with the flag set, and one with the flag clear. -/
theorem main_loop_gated_by_ItsTime_witness :
    flagSet.ItsTime = 1 ∧
    (mainLoopIteration flagSet).ItsTime = 0 ∧
    (mainLoopIteration flagSet).seconds = (flagSet.seconds + 1) % 2 ^ 16 ∧
    loopEntry.ItsTime ≠ 1 ∧
    (mainLoopIteration loopEntry).performed = loopEntry.performed :=
  ⟨by decide,
    ((main_loop_gated_by_ItsTime flagSet).1 (by decide)).1,
    ((main_loop_gated_by_ItsTime flagSet).1 (by decide)).2.1,
    by decide,
    ((main_loop_gated_by_ItsTime loopEntry).2 (by decide)).2.2⟩

/-- An iteration started at the test is the same as stepping the main flow alone. -/
theorem mainLoopIteration_eq_steps (s : LoopState) (hpc : s.pc = MainPC.test) :
    mainLoopIteration s =
      if s.ItsTime = 1 then interleave s [.main, .main, .main, .main]
      else interleave s [.main] := by
  by_cases h : s.ItsTime = 1
  · cases s; simp_all [mainLoopIteration, interleave, mainStep]
  · cases s; simp_all [mainLoopIteration, interleave, mainStep]

theorem LoopInv_mainStep (s : LoopState) (h : LoopInv s) : LoopInv (mainStep s) := by
  obtain ⟨ItsTime, seconds, led, pc, performed, increments, overflows⟩ := s
  cases pc <;> simp only [LoopInv, mainStep] at h ⊢
  · split
    · rename_i h1; simp only at h1 ⊢; omega
    · exact h
  · omega
  · omega
  · omega

theorem LoopInv_isr (s : LoopState) (h : LoopInv s) : LoopInv (ISR_TCE0_OVF s) := by
  obtain ⟨ItsTime, seconds, led, pc, performed, increments, overflows⟩ := s
  cases pc <;> simp only [LoopInv, ISR_TCE0_OVF] at h ⊢ <;> omega

theorem LoopInv_interleave (sched : List Actor) :
    ∀ s, LoopInv s → LoopInv (interleave s sched) := by
  induction sched with
  | nil => intro s h; exact h
  | cons a rest ih =>
    intro s h
    cases a
    · exact ih _ (LoopInv_mainStep s h)
    · exact ih _ (LoopInv_isr s h)

theorem overflows_interleave (sched : List Actor) :
    ∀ s, (interleave s sched).overflows = s.overflows + sched.count Actor.isr := by
  induction sched with
  | nil => intro s; simp [interleave]
  | cons a rest ih =>
    intro s
    cases a
    · rw [interleave, ih]
      have : (mainStep s).overflows = s.overflows := by
        unfold mainStep; split <;> (try split) <;> rfl
      simp [this]
    · rw [interleave, ih]
      simp [ISR_TCE0_OVF]; omega

theorem LoopInv_increments (s : LoopState) (h : LoopInv s) : s.increments ≤ s.overflows := by
  obtain ⟨ItsTime, seconds, led, pc, performed, increments, overflows⟩ := s
  cases pc <;> simp only [LoopInv] at h <;> dsimp only <;> omega

/-- Claim C9: in every interleaving of main-flow steps and runs of the overflow interrupt
routine from `ItsTime = 0`, `seconds = 0`, the number of increments of `seconds` is at most
the number of runs of the interrupt routine, and `ItsTime` is 0 or 1. -/
theorem seconds_never_ahead_of_timer (sched : List Actor) :
    (interleave loopEntry sched).increments ≤ (interleave loopEntry sched).overflows ∧
    (interleave loopEntry sched).overflows = sched.count Actor.isr ∧
    ((interleave loopEntry sched).ItsTime = 0 ∨ (interleave loopEntry sched).ItsTime = 1) := by
  have hinv : LoopInv (interleave loopEntry sched) :=
    LoopInv_interleave sched loopEntry (by simp [LoopInv, loopEntry])
  refine ⟨LoopInv_increments _ hinv, ?_, ?_⟩
  · rw [overflows_interleave]; simp [loopEntry]
  · have := hinv.1; omega

/-! ## TWI master transaction driver -/

/-- Claim C1: while `busy` is true, `submit` returns `Busy` and leaves
`currentTransaction`, and the whole driver state, as it was. -/
theorem submit_while_busy (d : Driver) (t : TransactionDescriptor) (hbusy : d.bus.busy = true) :
    (submit d t).1 = SubmitResult.Busy ∧
    (submit d t).2.bus.currentTransaction = d.bus.currentTransaction ∧
    (submit d t).2 = d := by
  simp [submit, hbusy]

/-- Witness for C1: a second `submit` right after an accepted one. -/
theorem submit_while_busy_witness :
    (submit Driver.init sampleWrite).2.bus.busy = true ∧
    (submit (submit Driver.init sampleWrite).2 sampleWrite).1 = SubmitResult.Busy ∧
    (submit (submit Driver.init sampleWrite).2 sampleWrite).2.bus.currentTransaction
      = (submit Driver.init sampleWrite).2.bus.currentTransaction :=
  ⟨by decide,
    (submit_while_busy (submit Driver.init sampleWrite).2 sampleWrite (by decide)).1,
    (submit_while_busy (submit Driver.init sampleWrite).2 sampleWrite (by decide)).2.1⟩

/-- Claim C3: when the peripheral answers the address byte with NACK, the interrupt
handler sets the status to `Nack`, returns to `Idle` with `busy` false, leaves `retryCount`
unchanged and issues only a stop condition, no further start. -/
theorem address_nack_is_final (max : Nat) (d : Driver) (t : TransactionDescriptor)
    (hphase : d.phase = Phase.AddressPhase) (hcur : d.bus.currentTransaction = some t) :
    poll (onInterrupt max d InterruptCause.NackReceived) = some TransactionStatus.Nack ∧
    (onInterrupt max d InterruptCause.NackReceived).phase = Phase.Idle ∧
    (onInterrupt max d InterruptCause.NackReceived).bus.busy = false ∧
    (onInterrupt max d InterruptCause.NackReceived).bus.retryCount = d.bus.retryCount ∧
    (onInterrupt max d InterruptCause.NackReceived).issued = d.issued ++ [BusOp.setStopCondition] := by
  simp [onInterrupt, hphase, hcur, Driver.finish, poll]

/-- Witness for C3: the address byte of the sample write is answered with NACK. -/
theorem address_nack_is_final_witness :
    (submit Driver.init sampleWrite).2.phase = Phase.AddressPhase ∧
    (submit Driver.init sampleWrite).2.bus.currentTransaction
      = some { sampleWrite with status := .InProgress } ∧
    poll (onInterrupt 3 (submit Driver.init sampleWrite).2 InterruptCause.NackReceived)
      = some TransactionStatus.Nack ∧
    (onInterrupt 3 (submit Driver.init sampleWrite).2 InterruptCause.NackReceived).bus.retryCount
      = (submit Driver.init sampleWrite).2.bus.retryCount :=
  ⟨by decide, by decide,
    (address_nack_is_final 3 (submit Driver.init sampleWrite).2
      { sampleWrite with status := .InProgress } (by decide) (by decide)).1,
    (address_nack_is_final 3 (submit Driver.init sampleWrite).2
      { sampleWrite with status := .InProgress } (by decide) (by decide)).2.2.2.1⟩

theorem simulate_idle (max : Nat) (n : Nat) (d : Driver) (b : Bus) (h : d.phase = Phase.Idle) :
    simulate max n (d, b) = (d, b) := by
  cases n with
  | zero => rfl
  | succ n => simp [simulate, h, Bus.next]

theorem simulate_add (max : Nat) (n m : Nat) :
    ∀ x : Driver × Bus, simulate max (n + m) x = simulate max m (simulate max n x) := by
  induction n with
  | zero => intro x; simp [simulate]
  | succ n ih =>
    intro x
    obtain ⟨d, b⟩ := x
    rw [Nat.add_right_comm]
    simp only [simulate]
    cases hnext : b.next d.phase with
    | none =>
      simp only
      have hidle : d.phase = Phase.Idle := by
        cases hp : d.phase <;> simp [hp, Bus.next] at hnext ⊢
        all_goals (split at hnext <;> cases hnext)
      exact (simulate_idle max m d b hidle).symm
    | some cb =>
      obtain ⟨c, b1⟩ := cb
      simp only
      exact ih _

theorem simulate_succ (max : Nat) (n : Nat) (d : Driver) (b b1 : Bus) (c : InterruptCause)
    (hnext : b.next d.phase = some (c, b1)) :
    simulate max (n + 1) (d, b) = simulate max n (onInterrupt max d c, b1) := by
  simp only [simulate, hnext]

theorem Settles_mono (max : Nat) (d : Driver) (b : Bus) (N M : Nat) (h : Settles max d b N)
    (hNM : N ≤ M) : Settles max d b M := by
  obtain ⟨n, hn, h⟩ := h
  exact ⟨n, le_trans hn hNM, h⟩

theorem Settles_step (max : Nat) (d : Driver) (b b1 : Bus) (c : InterruptCause) (N : Nat)
    (hnext : b.next d.phase = some (c, b1))
    (hkeep : (∀ i, b.attempts ≤ i → b.loses i = false) →
      (∀ i, b1.attempts ≤ i → b1.loses i = false) ∧ b1.lost = b.lost)
    (h : Settles max (onInterrupt max d c) b1 N) : Settles max d b (N + 1) := by
  obtain ⟨n, hn, h1, h2, h3, h4, h5, h6⟩ := h
  refine ⟨n + 1, by omega, ?_⟩
  simp only [simulate, hnext]
  refine ⟨h1, h2, h3, h4, h5, ?_⟩
  intro hq
  obtain ⟨hq1, hq2⟩ := hkeep hq
  rw [h6 hq1, hq2]

theorem Settles_now (max : Nat) (d : Driver) (b : Bus) (N : Nat)
    (h1 : d.phase = Phase.Idle) (h2 : d.bus.busy = false) (h3 : d.bus.retryCount = b.lost)
    (h4 : b.lost < max → poll d = some TransactionStatus.Success)
    (h5 : max ≤ b.lost → poll d = some TransactionStatus.ArbitrationLost) :
    Settles max d b N :=
  ⟨0, Nat.zero_le _, h1, h2, h3, h4, h5, fun _ => rfl⟩

theorem Settles_final (max : Nat) (d : Driver) (b : Bus) (N fuel : Nat)
    (h : Settles max d b N) (hfuel : N ≤ fuel) :
    (simulate max fuel (d, b)).1.phase = Phase.Idle ∧
    (simulate max fuel (d, b)).1.bus.busy = false ∧
    (simulate max fuel (d, b)).1.bus.retryCount = (simulate max fuel (d, b)).2.lost ∧
    ((simulate max fuel (d, b)).2.lost < max →
      poll (simulate max fuel (d, b)).1 = some TransactionStatus.Success) ∧
    (max ≤ (simulate max fuel (d, b)).2.lost →
      poll (simulate max fuel (d, b)).1 = some TransactionStatus.ArbitrationLost) ∧
    ((∀ i, b.attempts ≤ i → b.loses i = false) → (simulate max fuel (d, b)).2.lost = b.lost) := by
  obtain ⟨n, hn, h1, h2, h3, h4, h5, h6⟩ := h
  have : fuel = n + (fuel - n) := by omega
  rw [this, simulate_add]
  rcases hsim : simulate max n (d, b) with ⟨d', b'⟩
  rw [hsim] at h1 h2 h3 h4 h5 h6
  rw [simulate_idle max _ d' b' h1]
  exact ⟨h1, h2, h3, h4, h5, h6⟩

/-- The read phase ends with `Success`. -/
theorem read_phase_settles (max : Nat) :
    ∀ (m : Nat) (d : Driver) (b : Bus) (t : TransactionDescriptor),
      d.phase = Phase.DataReadPhase → d.bus.currentTransaction = some t →
      d.bus.retryCount = b.lost → d.bus.retryCount < max →
      t.readCapacity - (t.bytesTransferred + 1) ≤ m →
      Settles max d b (m + 1) := by
  intro m
  induction m with
  | zero =>
    intro d b t hp hc hr hlt hm
    refine Settles_step max d b { b with delivered := b.delivered + 1 }
      (.ByteReceived (b.incoming b.delivered)) 0 (by simp [hp, Bus.next])
      (fun h => ⟨h, rfl⟩) ?_
    have hnot : ¬ t.bytesTransferred + 1 < t.readCapacity := by omega
    have : onInterrupt max d (.ByteReceived (b.incoming b.delivered))
        = d.finish { t with readBuffer := t.readBuffer ++ [b.incoming b.delivered],
                            bytesTransferred := t.bytesTransferred + 1 } .Success
            [.nackNextByte, .setStopCondition] := by
      simp [onInterrupt, hp, hc, hnot]
    rw [this]
    exact Settles_now max _ _ _ rfl rfl hr (fun _ => rfl) (fun h => by
      have : b.lost < max := hr ▸ hlt
      exact absurd h (by simpa using this))
  | succ m ih =>
    intro d b t hp hc hr hlt hm
    refine Settles_step max d b { b with delivered := b.delivered + 1 }
      (.ByteReceived (b.incoming b.delivered)) (m + 1) (by simp [hp, Bus.next])
      (fun h => ⟨h, rfl⟩) ?_
    by_cases hmore : t.bytesTransferred + 1 < t.readCapacity
    · have : onInterrupt max d (.ByteReceived (b.incoming b.delivered))
          = { d with
              bus := { d.bus with
                currentTransaction := some
                  { t with readBuffer := t.readBuffer ++ [b.incoming b.delivered],
                           bytesTransferred := t.bytesTransferred + 1 } }
              issued := d.issued ++ [.ackNextByte] } := by
        simp [onInterrupt, hp, hc, hmore]
      rw [this]
      exact ih _ _ _ hp rfl hr hlt (by simp; omega)
    · have : onInterrupt max d (.ByteReceived (b.incoming b.delivered))
          = d.finish { t with readBuffer := t.readBuffer ++ [b.incoming b.delivered],
                              bytesTransferred := t.bytesTransferred + 1 } .Success
              [.nackNextByte, .setStopCondition] := by
        simp [onInterrupt, hp, hc, hmore]
      rw [this]
      exact Settles_now max _ _ _ rfl rfl hr (fun _ => rfl) (fun h => by
        have : b.lost < max := hr ▸ hlt
        exact absurd h (by simpa using this))

/-- A lost arbitration in the address phase either is retried or ends the transaction with
`ArbitrationLost`; `j` is the number of losses still allowed. -/
theorem address_loss_settles (max : Nat) (d : Driver) (b : Bus) (t : TransactionDescriptor)
    (j N : Nat) (hp : d.phase = Phase.AddressPhase) (hc : d.bus.currentTransaction = some t)
    (hr : d.bus.retryCount = b.lost) (hj : d.bus.retryCount + (j + 1) = max)
    (hl : b.loses b.attempts = true)
    (hrec : ∀ d1 : Driver, d1.phase = Phase.AddressPhase → d1.bus.currentTransaction = some t →
      d1.readSubPhase = d.readSubPhase → d1.bus.retryCount = d.bus.retryCount + 1 → 0 < j →
      Settles max d1 { b with attempts := b.attempts + 1, lost := b.lost + 1 } N) :
    Settles max d b (N + 1) := by
  refine Settles_step max d b { b with attempts := b.attempts + 1, lost := b.lost + 1 }
    .ArbitrationLost N (by simp [hp, Bus.next, hl])
    (fun h => absurd (h _ (Nat.le_refl _)) (by simp [hl])) ?_
  by_cases hlt : d.bus.retryCount + 1 < max
  · have hstep : onInterrupt max d .ArbitrationLost =
        { d with
          bus := { d.bus with retryCount := d.bus.retryCount + 1 }
          issued := d.issued ++
            [.setStartCondition t.peripheralAddress (t.direction == .Read || d.readSubPhase)] } := by
      simp [onInterrupt, hp, hc, hlt]
    rw [hstep]
    exact hrec _ hp hc rfl rfl (by omega)
  · have hstep : onInterrupt max d .ArbitrationLost =
        Driver.finish { d with bus := { d.bus with retryCount := d.bus.retryCount + 1 } } t
          .ArbitrationLost [] := by
      simp [onInterrupt, hp, hc, hlt]
    rw [hstep]
    exact Settles_now max _ _ _ rfl rfl (by simp [Driver.finish, hr])
      (fun h => by simp at h; omega) (fun _ => rfl)

/-- The address phase of a read, first or repeated, settles. -/
theorem read_address_settles (max : Nat) (t : TransactionDescriptor) :
    ∀ (j : Nat) (d : Driver) (b : Bus),
      d.phase = Phase.AddressPhase → d.bus.currentTransaction = some t →
      (t.direction = Direction.Read ∨ d.readSubPhase = true) →
      d.bus.retryCount = b.lost → d.bus.retryCount + (j + 1) = max →
      Settles max d b (j + 1 + t.readCapacity + 1) := by
  intro j
  induction j with
  | zero =>
    intro d b hp hc hdir hr hj
    by_cases hl : b.loses b.attempts = true
    · exact Settles_mono max d b _ _
        (address_loss_settles max d b t 0 0 hp hc hr hj hl
          (fun _ _ _ _ _ h => absurd h (Nat.lt_irrefl 0))) (by omega)
    · refine Settles_mono max d b _ _
        (Settles_step max d b { b with attempts := b.attempts + 1 } .AckReceived
          (t.readCapacity + 1) (by simp [hp, Bus.next, hl])
          (fun h => ⟨fun i hi => h i (by simp at hi; omega), rfl⟩) ?_) (by omega)
      have : onInterrupt max d .AckReceived
          = { d with
              bus := { d.bus with currentTransaction := some { t with bytesTransferred := 0 } }
              phase := .DataReadPhase } := by
        rcases hdir with h | h <;> simp [onInterrupt, hp, hc, h]
      rw [this]
      exact read_phase_settles max t.readCapacity _ _ _ rfl rfl hr (by simp; omega) (by simp)
  | succ j ih =>
    intro d b hp hc hdir hr hj
    by_cases hl : b.loses b.attempts = true
    · refine Settles_mono max d b _ _
        (address_loss_settles max d b t (j + 1) (j + 1 + t.readCapacity + 1) hp hc hr hj hl
          (fun d1 h1 h2 h3 h4 _ => ih d1 _ h1 h2 ?_ (by simp [h4, hr]) (by omega))) (by omega)
      rcases hdir with h | h
      · exact Or.inl h
      · exact Or.inr (h3.trans h)
    · refine Settles_mono max d b _ _
        (Settles_step max d b { b with attempts := b.attempts + 1 } .AckReceived
          (t.readCapacity + 1) (by simp [hp, Bus.next, hl])
          (fun h => ⟨fun i hi => h i (by simp at hi; omega), rfl⟩) ?_) (by omega)
      have : onInterrupt max d .AckReceived
          = { d with
              bus := { d.bus with currentTransaction := some { t with bytesTransferred := 0 } }
              phase := .DataReadPhase } := by
        rcases hdir with h | h <;> simp [onInterrupt, hp, hc, h]
      rw [this]
      exact read_phase_settles max t.readCapacity _ _ _ rfl rfl hr (by simp; omega) (by simp)

/-- Once the write reaction to an ACK has run, a transaction that is not a plain read
settles. -/
theorem write_ack_settles (max : Nat) (j : Nat) :
    ∀ (m : Nat) (d : Driver) (b : Bus) (t : TransactionDescriptor),
      t.direction ≠ Direction.Read → d.bus.retryCount = b.lost →
      d.bus.retryCount + (j + 1) = max →
      t.writeBuffer.length - t.bytesTransferred ≤ m →
      Settles max (d.dataWriteAck t) b (m + (j + 1 + t.readCapacity + 1)) := by
  intro m
  induction m with
  | zero =>
    intro d b t hdir hr hj hm
    have hlt : ¬ t.bytesTransferred < t.writeBuffer.length := by omega
    cases hd : t.direction with
    | Read => exact absurd hd hdir
    | Write =>
      have : d.dataWriteAck t = d.finish t .Success [.setStopCondition] := by
        simp [Driver.dataWriteAck, hlt, hd]
      rw [this]
      exact Settles_now max _ _ _ rfl rfl hr (fun _ => rfl) (fun h => by
        have : d.bus.retryCount < max := by omega
        rw [hr] at this
        exact absurd h (by simpa using this))
    | WriteThenRead =>
      have : d.dataWriteAck t =
          { d with
            bus := { d.bus with currentTransaction := some t }
            phase := .AddressPhase
            readSubPhase := true
            issued := d.issued ++ [.setStartCondition t.peripheralAddress true] } := by
        simp [Driver.dataWriteAck, hlt, hd]
      rw [this]
      have := read_address_settles max t j
          { d with
            bus := { d.bus with currentTransaction := some t }
            phase := .AddressPhase
            readSubPhase := true
            issued := d.issued ++ [.setStartCondition t.peripheralAddress true] } b rfl rfl
          (Or.inr rfl) hr hj
      exact Settles_mono max _ _ _ _ this (by omega)
  | succ m ih =>
    intro d b t hdir hr hj hm
    by_cases hlt : t.bytesTransferred < t.writeBuffer.length
    · have : d.dataWriteAck t =
          { d with
            bus := { d.bus with
              currentTransaction := some { t with bytesTransferred := t.bytesTransferred + 1 } }
            phase := .DataWritePhase
            issued := d.issued ++
              [.writeDataRegister (t.writeBuffer.get ⟨t.bytesTransferred, hlt⟩)] } := by
        simp [Driver.dataWriteAck, hlt]
      rw [this]
      have hrec := ih
          { d with
            bus := { d.bus with
              currentTransaction := some { t with bytesTransferred := t.bytesTransferred + 1 } }
            phase := .DataWritePhase
            issued := d.issued ++
              [.writeDataRegister (t.writeBuffer.get ⟨t.bytesTransferred, hlt⟩)] }
          b { t with bytesTransferred := t.bytesTransferred + 1 } hdir hr hj (by simp; omega)
      have hstep := Settles_step max
          { d with
            bus := { d.bus with
              currentTransaction := some { t with bytesTransferred := t.bytesTransferred + 1 } }
            phase := .DataWritePhase
            issued := d.issued ++
              [.writeDataRegister (t.writeBuffer.get ⟨t.bytesTransferred, hlt⟩)] }
          b b .AckReceived _ (by simp [Bus.next]) (fun h => ⟨h, rfl⟩)
          (by
            have : onInterrupt max
                { d with
                  bus := { d.bus with
                    currentTransaction :=
                      some { t with bytesTransferred := t.bytesTransferred + 1 } }
                  phase := .DataWritePhase
                  issued := d.issued ++
                    [.writeDataRegister (t.writeBuffer.get ⟨t.bytesTransferred, hlt⟩)] }
                .AckReceived
                = Driver.dataWriteAck
                    { d with
                      bus := { d.bus with
                        currentTransaction :=
                          some { t with bytesTransferred := t.bytesTransferred + 1 } }
                      phase := .DataWritePhase
                      issued := d.issued ++
                        [.writeDataRegister (t.writeBuffer.get ⟨t.bytesTransferred, hlt⟩)] }
                    { t with bytesTransferred := t.bytesTransferred + 1 } := by
              simp [onInterrupt]
            rw [this]
            exact hrec)
      exact Settles_mono max _ _ _ _ hstep (by simp; omega)
    · exact Settles_mono max _ _ _ _ (ih d b t hdir hr hj (by omega)) (by omega)

/-- The address phase of the first start of a write settles. -/
theorem write_address_settles (max : Nat) (t : TransactionDescriptor)
    (hdir : t.direction ≠ Direction.Read) :
    ∀ (j : Nat) (d : Driver) (b : Bus),
      d.phase = Phase.AddressPhase → d.bus.currentTransaction = some t →
      d.readSubPhase = false → d.bus.retryCount = b.lost →
      d.bus.retryCount + (j + 1) = max →
      Settles max d b (j + 1 + t.writeBuffer.length + t.readCapacity + 2) := by
  intro j
  induction j with
  | zero =>
    intro d b hp hc hsub hr hj
    by_cases hl : b.loses b.attempts = true
    · exact Settles_mono max d b _ _
        (address_loss_settles max d b t 0 0 hp hc hr hj hl
          (fun _ _ _ _ _ h => absurd h (Nat.lt_irrefl 0))) (by omega)
    · refine Settles_mono max d b _ _
        (Settles_step max d b { b with attempts := b.attempts + 1 } .AckReceived
          (t.writeBuffer.length + (0 + 1 + t.readCapacity + 1)) (by simp [hp, Bus.next, hl])
          (fun h => ⟨fun i hi => h i (by simp at hi; omega), rfl⟩) ?_) (by omega)
      have : onInterrupt max d .AckReceived = d.dataWriteAck { t with bytesTransferred := 0 } := by
        simp [onInterrupt, hp, hc, hdir, hsub]
      rw [this]
      exact write_ack_settles max 0 t.writeBuffer.length d _ { t with bytesTransferred := 0 }
        hdir hr hj (by simp)
  | succ j ih =>
    intro d b hp hc hsub hr hj
    by_cases hl : b.loses b.attempts = true
    · exact Settles_mono max d b _ _
        (address_loss_settles max d b t (j + 1)
          (j + 1 + t.writeBuffer.length + t.readCapacity + 2) hp hc hr hj hl
          (fun d1 h1 h2 h3 h4 _ => ih d1 _ h1 h2 (h3.trans hsub) (by simp [h4, hr])
            (by omega))) (by omega)
    · refine Settles_mono max d b _ _
        (Settles_step max d b { b with attempts := b.attempts + 1 } .AckReceived
          (t.writeBuffer.length + (j + 1 + 1 + t.readCapacity + 1))
          (by simp [hp, Bus.next, hl])
          (fun h => ⟨fun i hi => h i (by simp at hi; omega), rfl⟩) ?_) (by omega)
      have : onInterrupt max d .AckReceived = d.dataWriteAck { t with bytesTransferred := 0 } := by
        simp [onInterrupt, hp, hc, hdir, hsub]
      rw [this]
      exact write_ack_settles max (j + 1) t.writeBuffer.length d _
        { t with bytesTransferred := 0 } hdir hr hj (by simp)

/-- The address phase of the first start settles within the interrupt bound. -/
theorem address_settles (max : Nat) (d : Driver) (b : Bus) (t : TransactionDescriptor) (j : Nat)
    (hp : d.phase = Phase.AddressPhase) (hc : d.bus.currentTransaction = some t)
    (hsub : d.readSubPhase = false) (hr : d.bus.retryCount = b.lost)
    (hj : d.bus.retryCount + (j + 1) = max) :
    Settles max d b (j + 1 + t.writeBuffer.length + t.readCapacity + 2) := by
  by_cases hdir : t.direction = Direction.Read
  · exact Settles_mono max _ _ _ _ (read_address_settles max t j d b hp hc (Or.inl hdir) hr hj)
      (by omega)
  · exact write_address_settles max t hdir j d b hp hc hsub hr hj

/-- Lost start attempts below the bound are all retried. -/
theorem losses_retried (max : Nat) (t : TransactionDescriptor) :
    ∀ (j : Nat) (d : Driver) (b : Bus),
      d.phase = Phase.AddressPhase → d.bus.currentTransaction = some t →
      d.readSubPhase = false → d.bus.retryCount + j < max →
      (∀ i, i < j → b.loses (b.attempts + i) = true) →
      ∃ d1 : Driver, d1.phase = Phase.AddressPhase ∧ d1.bus.currentTransaction = some t ∧
        d1.readSubPhase = false ∧ d1.bus.retryCount = d.bus.retryCount + j ∧
        simulate max j (d, b)
          = (d1, { b with attempts := b.attempts + j, lost := b.lost + j }) := by
  intro j
  induction j with
  | zero =>
    intro d b hp hc hsub _ _
    exact ⟨d, hp, hc, hsub, rfl, rfl⟩
  | succ j ih =>
    intro d b hp hc hsub hlt hl
    have hl0 : b.loses b.attempts = true := by simpa using hl 0 (by omega)
    have hstep : onInterrupt max d .ArbitrationLost =
        { d with
          bus := { d.bus with retryCount := d.bus.retryCount + 1 }
          issued := d.issued ++
            [.setStartCondition t.peripheralAddress (t.direction == .Read || d.readSubPhase)] } := by
      have : d.bus.retryCount + 1 < max := by omega
      simp [onInterrupt, hp, hc, this]
    obtain ⟨d1, h1, h2, h3, h4, h5⟩ := ih
      { d with
        bus := { d.bus with retryCount := d.bus.retryCount + 1 }
        issued := d.issued ++
          [.setStartCondition t.peripheralAddress (t.direction == .Read || d.readSubPhase)] }
      { b with attempts := b.attempts + 1, lost := b.lost + 1 } hp hc hsub
      (by simp; omega)
      (fun i hi => by
        have := hl (i + 1) (by omega)
        simpa [Nat.add_assoc, Nat.add_comm 1 i] using this)
    refine ⟨d1, h1, h2, h3, by simp at h4; omega, ?_⟩
    rw [simulate_succ max j d b { b with attempts := b.attempts + 1, lost := b.lost + 1 }
      .ArbitrationLost (by simp [hp, Bus.next, hl0]), hstep, h5]
    simp [Nat.add_assoc, Nat.add_comm 1 j]

/-- Lost start attempts that reach the bound end the transaction with
`ArbitrationLost`. -/
theorem losses_exhaust (max : Nat) (t : TransactionDescriptor) :
    ∀ (j : Nat) (d : Driver) (b : Bus),
      d.phase = Phase.AddressPhase → d.bus.currentTransaction = some t →
      d.bus.retryCount + (j + 1) = max →
      (∀ i, i < j + 1 → b.loses (b.attempts + i) = true) →
      ∃ n, n ≤ j + 1 ∧ (simulate max n (d, b)).1.phase = Phase.Idle ∧
        poll (simulate max n (d, b)).1 = some TransactionStatus.ArbitrationLost := by
  intro j
  induction j with
  | zero =>
    intro d b hp hc hj hl
    have hl0 : b.loses b.attempts = true := by simpa using hl 0 (by omega)
    have hnot : ¬ d.bus.retryCount + 1 < max := by omega
    have hstep : onInterrupt max d .ArbitrationLost =
        Driver.finish { d with bus := { d.bus with retryCount := d.bus.retryCount + 1 } } t
          .ArbitrationLost [] := by
      simp [onInterrupt, hp, hc, hnot]
    refine ⟨1, by omega, ?_⟩
    rw [simulate_succ max 0 d b { b with attempts := b.attempts + 1, lost := b.lost + 1 }
      .ArbitrationLost (by simp [hp, Bus.next, hl0]), hstep]
    exact ⟨rfl, rfl⟩
  | succ j ih =>
    intro d b hp hc hj hl
    have hl0 : b.loses b.attempts = true := by simpa using hl 0 (by omega)
    have hlt : d.bus.retryCount + 1 < max := by omega
    have hstep : onInterrupt max d .ArbitrationLost =
        { d with
          bus := { d.bus with retryCount := d.bus.retryCount + 1 }
          issued := d.issued ++
            [.setStartCondition t.peripheralAddress (t.direction == .Read || d.readSubPhase)] } := by
      simp [onInterrupt, hp, hc, hlt]
    obtain ⟨n, hn, h1, h2⟩ := ih
      { d with
        bus := { d.bus with retryCount := d.bus.retryCount + 1 }
        issued := d.issued ++
          [.setStartCondition t.peripheralAddress (t.direction == .Read || d.readSubPhase)] }
      { b with attempts := b.attempts + 1, lost := b.lost + 1 } hp hc
      (by simp; omega)
      (fun i hi => by
        have := hl (i + 1) (by omega)
        simpa [Nat.add_assoc, Nat.add_comm 1 i] using this)
    refine ⟨n + 1, by omega, ?_⟩
    rw [simulate_succ max n d b { b with attempts := b.attempts + 1, lost := b.lost + 1 }
      .ArbitrationLost (by simp [hp, Bus.next, hl0]), hstep]
    exact ⟨h1, h2⟩

/-- Claim C2: for a positive retry bound `max`, every valid transaction accepted by
`submit` from a driver that is not busy, and every bus that acknowledges everything except
that it loses arbitration on start attempts of its choosing, first starts, re-issued starts
and repeated starts alike: the run ends within the interrupt bound, and when the bus has
lost arbitration exactly `k` times during the transaction, the final status is `Success`
with `retryCount = k` if `k < max`, and `ArbitrationLost` if `k ≥ max`.  In particular a bus
that loses exactly its first `k < max` start attempts gives `Success` with `retryCount = k`,
and one that loses its first `k ≥ max` start attempts gives `ArbitrationLost`. -/
theorem arbitration_loss_retries (max : Nat) (hmax : 0 < max) (d : Driver)
    (t : TransactionDescriptor) (_ht : t.Valid) (hidle : d.bus.busy = false)
    (loses : Nat → Bool) (incoming : Nat → Nat) (fuel : Nat)
    (hfuel : interruptBound max t ≤ fuel) :
    (submit d t).1 = SubmitResult.Accepted ∧
    (∀ k, (simulate max fuel ((submit d t).2, Bus.fresh loses incoming)).2.lost = k →
      (k < max →
        poll (simulate max fuel ((submit d t).2, Bus.fresh loses incoming)).1
          = some TransactionStatus.Success ∧
        (simulate max fuel ((submit d t).2, Bus.fresh loses incoming)).1.bus.retryCount = k ∧
        (simulate max fuel ((submit d t).2, Bus.fresh loses incoming)).1.phase = Phase.Idle ∧
        (simulate max fuel ((submit d t).2, Bus.fresh loses incoming)).1.bus.busy = false) ∧
      (max ≤ k →
        poll (simulate max fuel ((submit d t).2, Bus.fresh loses incoming)).1
          = some TransactionStatus.ArbitrationLost ∧
        (simulate max fuel ((submit d t).2, Bus.fresh loses incoming)).1.phase = Phase.Idle ∧
        (simulate max fuel ((submit d t).2, Bus.fresh loses incoming)).1.bus.busy = false)) ∧
    (∀ k, k < max → (∀ i, i < k → loses i = true) → (∀ i, k ≤ i → loses i = false) →
      poll (simulate max fuel ((submit d t).2, Bus.fresh loses incoming)).1
        = some TransactionStatus.Success ∧
      (simulate max fuel ((submit d t).2, Bus.fresh loses incoming)).1.bus.retryCount = k) ∧
    (∀ k, max ≤ k → (∀ i, i < k → loses i = true) →
      poll (simulate max fuel ((submit d t).2, Bus.fresh loses incoming)).1
        = some TransactionStatus.ArbitrationLost) := by
  have hsub : submit d t =
      (.Accepted,
        { bus :=
            { currentTransaction := some { t with status := .InProgress },
              retryCount := 0, busy := true },
          phase := .AddressPhase, readSubPhase := false,
          issued := d.issued ++
            [.setStartCondition t.peripheralAddress (t.direction == .Read)] }) := by
    simp [submit, hidle]
  rw [hsub]
  have key : ∀ d1 : Driver, d1.phase = Phase.AddressPhase →
      d1.bus.currentTransaction = some { t with status := .InProgress } →
      d1.readSubPhase = false → d1.bus.retryCount = 0 →
      (∀ k, (simulate max fuel (d1, Bus.fresh loses incoming)).2.lost = k →
        (k < max →
          poll (simulate max fuel (d1, Bus.fresh loses incoming)).1
            = some TransactionStatus.Success ∧
          (simulate max fuel (d1, Bus.fresh loses incoming)).1.bus.retryCount = k ∧
          (simulate max fuel (d1, Bus.fresh loses incoming)).1.phase = Phase.Idle ∧
          (simulate max fuel (d1, Bus.fresh loses incoming)).1.bus.busy = false) ∧
        (max ≤ k →
          poll (simulate max fuel (d1, Bus.fresh loses incoming)).1
            = some TransactionStatus.ArbitrationLost ∧
          (simulate max fuel (d1, Bus.fresh loses incoming)).1.phase = Phase.Idle ∧
          (simulate max fuel (d1, Bus.fresh loses incoming)).1.bus.busy = false)) ∧
      (∀ k, k < max → (∀ i, i < k → loses i = true) → (∀ i, k ≤ i → loses i = false) →
        poll (simulate max fuel (d1, Bus.fresh loses incoming)).1
          = some TransactionStatus.Success ∧
        (simulate max fuel (d1, Bus.fresh loses incoming)).1.bus.retryCount = k) ∧
      (∀ k, max ≤ k → (∀ i, i < k → loses i = true) →
        poll (simulate max fuel (d1, Bus.fresh loses incoming)).1
          = some TransactionStatus.ArbitrationLost) := by
    intro d1 hp hc hs hr
    obtain ⟨j, hj⟩ : ∃ j, max = j + 1 := ⟨max - 1, by omega⟩
    have hbound : j + 1 + t.writeBuffer.length + t.readCapacity + 2 ≤ fuel := by
      simp only [interruptBound] at hfuel; omega
    have hsettle := address_settles max d1 (Bus.fresh loses incoming)
      { t with status := .InProgress } j hp hc hs (by simp [hr, Bus.fresh])
      (by rw [hr]; omega)
    obtain ⟨f1, f2, f3, f4, f5, -⟩ := Settles_final max _ _ _ fuel hsettle hbound
    refine ⟨?_, ?_, ?_⟩
    · intro k hk
      rw [hk] at f3 f4 f5
      exact ⟨fun h => ⟨f4 h, f3, f1, f2⟩, fun h => ⟨f5 h, f1, f2⟩⟩
    · intro k hk hlose hack
      obtain ⟨d2, g1, g2, g3, g4, g5⟩ := losses_retried max { t with status := .InProgress } k d1
        (Bus.fresh loses incoming) hp hc hs (by rw [hr]; omega)
        (fun i hi => by simpa [Bus.fresh] using hlose i hi)
      obtain ⟨j2, hj2⟩ : ∃ j2, max = k + (j2 + 1) := ⟨max - k - 1, by omega⟩
      have hsettle2 := address_settles max d2
        { Bus.fresh loses incoming with attempts := (Bus.fresh loses incoming).attempts + k,
                                         lost := (Bus.fresh loses incoming).lost + k }
        { t with status := .InProgress } j2 g1 g2 g3 (by simp [g4, hr, Bus.fresh])
        (by rw [g4, hr]; omega)
      have hfuel2 : fuel = k + (fuel - k) := by omega
      have hbound2 : j2 + 1 + t.writeBuffer.length + t.readCapacity + 2 ≤ fuel - k := by
        simp only [interruptBound] at hfuel; omega
      obtain ⟨e1, e2, e3, e4, e5, e6⟩ := Settles_final max _ _ _ (fuel - k) hsettle2 hbound2
      rw [hfuel2, simulate_add, g5]
      have hlost := e6 (fun i hi => hack i (by simp [Bus.fresh] at hi; exact hi))
      simp only [Bus.fresh, Nat.zero_add] at hlost e3 e4 ⊢
      rw [hlost] at e3 e4
      exact ⟨e4 hk, e3⟩
    · intro k hk hlose
      obtain ⟨n, hn, g1, g2⟩ := losses_exhaust max { t with status := .InProgress } j d1
        (Bus.fresh loses incoming) hp hc (by rw [hr]; omega)
        (fun i hi => by simpa [Bus.fresh] using hlose i (by omega))
      have hfuel2 : fuel = n + (fuel - n) := by omega
      rw [hfuel2, simulate_add]
      rcases hsim : simulate max n (d1, Bus.fresh loses incoming) with ⟨d', b'⟩
      rw [hsim] at g1 g2
      rw [simulate_idle max _ d' b' g1]
      exact g2
  exact ⟨rfl, key _ rfl rfl rfl rfl⟩

/-- Witness for C2 with the bound 3 and a write followed by a read: a loss at the first
start and one at the repeated start end in `Success` with two retries; three losses, two
of them at the repeated start, end in `ArbitrationLost`. -/
theorem arbitration_loss_retries_witness :
    0 < 3 ∧ sampleWriteThenRead.Valid ∧ Driver.init.bus.busy = false ∧
    interruptBound 3 sampleWriteThenRead ≤ 10 ∧
    (simulate 3 10
      ((submit Driver.init sampleWriteThenRead).2, Bus.fresh losesTwice sampleIncoming)).2.lost = 2 ∧
    2 < 3 ∧
    (poll (simulate 3 10
        ((submit Driver.init sampleWriteThenRead).2, Bus.fresh losesTwice sampleIncoming)).1
        = some TransactionStatus.Success ∧
      (simulate 3 10
        ((submit Driver.init sampleWriteThenRead).2,
          Bus.fresh losesTwice sampleIncoming)).1.bus.retryCount = 2 ∧
      (simulate 3 10
        ((submit Driver.init sampleWriteThenRead).2,
          Bus.fresh losesTwice sampleIncoming)).1.phase = Phase.Idle ∧
      (simulate 3 10
        ((submit Driver.init sampleWriteThenRead).2,
          Bus.fresh losesTwice sampleIncoming)).1.bus.busy = false) ∧
    (simulate 3 10
      ((submit Driver.init sampleWriteThenRead).2,
        Bus.fresh losesAllButSecond sampleIncoming)).2.lost = 3 ∧
    3 ≤ 3 ∧
    (poll (simulate 3 10
        ((submit Driver.init sampleWriteThenRead).2,
          Bus.fresh losesAllButSecond sampleIncoming)).1
        = some TransactionStatus.ArbitrationLost ∧
      (simulate 3 10
        ((submit Driver.init sampleWriteThenRead).2,
          Bus.fresh losesAllButSecond sampleIncoming)).1.phase = Phase.Idle ∧
      (simulate 3 10
        ((submit Driver.init sampleWriteThenRead).2,
          Bus.fresh losesAllButSecond sampleIncoming)).1.bus.busy = false) :=
  ⟨by decide, by decide, rfl, by decide, by decide, by decide,
    ((arbitration_loss_retries 3 (by decide) Driver.init sampleWriteThenRead (by decide) rfl
      losesTwice sampleIncoming 10 (by decide)).2.1 2 (by decide)).1 (by decide),
    by decide, by decide,
    ((arbitration_loss_retries 3 (by decide) Driver.init sampleWriteThenRead (by decide) rfl
      losesAllButSecond sampleIncoming 10 (by decide)).2.1 3 (by decide)).2 (by decide)⟩

end Poseidon
